import Mathlib

/-!
Verification development for the webhook-ingestion subsystem of
go-bitbucket-server (package `bitbucket`).

The Go source is shallowly embedded: byte strings (`[]byte` and Go `string`
values, which are byte strings) are `List Nat` with entries below 256; machine
words are `Nat` reduced modulo `2 ^ 32` / `2 ^ 64` where the Go code would
overflow; fallible operations return `Except` / `Option`; the pair-valued
`ValidatePayload` keeps Go's `(payload, err)` shape so that `nil` results stay
observable.

Standard-library functions the source calls (crypto/sha1, crypto/sha256,
crypto/sha512, crypto/hmac, crypto/subtle, encoding/hex, net/url's query
parsing and escaping, strings.SplitN, and the parts of encoding/json that
`ParseWebHook` exercises) are translated here from their documented behaviour
and Go sources, since they are external dependencies of the repository.
-/

set_option maxRecDepth 100000

deriving instance DecidableEq for Except

namespace GoBitbucket

/-- Go byte string of an ASCII literal. -/
def bytes (s : String) : List Nat := s.toList.map Char.toNat

/-! ### Word and byte utilities -/

/-- 32-bit rotate left. -/
def rotl32 (n x : Nat) : Nat := ((x <<< n) ||| (x >>> (32 - n))) % 2 ^ 32

/-- 32-bit rotate right. -/
def rotr32 (n x : Nat) : Nat := ((x >>> n) ||| (x <<< (32 - n))) % 2 ^ 32

/-- 64-bit rotate right. -/
def rotr64 (n x : Nat) : Nat := ((x >>> n) ||| (x <<< (64 - n))) % 2 ^ 64

/-- 32-bit bitwise complement. -/
def not32 (x : Nat) : Nat := x ^^^ (2 ^ 32 - 1)

/-- 64-bit bitwise complement. -/
def not64 (x : Nat) : Nat := x ^^^ (2 ^ 64 - 1)

/-- Big-endian byte encoding of `n`, truncated to `w` bytes. -/
def toBytesBE : Nat → Nat → List Nat
  | 0, _ => []
  | w + 1, n => toBytesBE w (n >>> 8) ++ [n % 256]

/-- Big-endian byte decoding. -/
def fromBytesBE (l : List Nat) : Nat := l.foldl (fun acc b => acc * 256 + b) 0

def chunksOfAux (k : Nat) : Nat → List Nat → List (List Nat)
  | 0, _ => []
  | _, [] => []
  | fuel + 1, l => l.take k :: chunksOfAux k fuel (l.drop k)

/-- Split a byte list into consecutive chunks of `k` bytes. -/
def chunksOf (k : Nat) (l : List Nat) : List (List Nat) := chunksOfAux k l.length l

/-- Merkle–Damgård padding: append `0x80`, zeros, and the bit length in a
big-endian `lenBytes`-byte field, reaching a multiple of `blockBytes`. -/
def shaPad (blockBytes lenBytes : Nat) (msg : List Nat) : List Nat :=
  let zeros := (blockBytes - (msg.length + 1 + lenBytes) % blockBytes) % blockBytes
  msg ++ 128 :: (List.replicate zeros 0 ++ toBytesBE lenBytes (8 * msg.length))

/-! ### SHA-1 (crypto/sha1) -/

structure Sha1State where
  a : Nat
  b : Nat
  c : Nat
  d : Nat
  e : Nat

def sha1F (t b c d : Nat) : Nat :=
  if t < 20 then (b &&& c) ||| (not32 b &&& d)
  else if t < 40 then b ^^^ c ^^^ d
  else if t < 60 then (b &&& c) ||| (b &&& d) ||| (c &&& d)
  else b ^^^ c ^^^ d

def sha1K (t : Nat) : Nat :=
  if t < 20 then 1518500249
  else if t < 40 then 1859775393
  else if t < 60 then 2400959708
  else 3395469782

/-- SHA-1 message-schedule extension; the word list is kept newest-first. -/
def sha1SchedRev : Nat → List Nat → List Nat
  | 0, ws => ws
  | n + 1, ws =>
    sha1SchedRev n
      (rotl32 1 (ws.getD 2 0 ^^^ ws.getD 7 0 ^^^ ws.getD 13 0 ^^^ ws.getD 15 0) :: ws)

def sha1Step (t w : Nat) (s : Sha1State) : Sha1State :=
  ⟨(rotl32 5 s.a + sha1F t s.b s.c s.d + s.e + sha1K t + w) % 2 ^ 32,
   s.a, rotl32 30 s.b, s.c, s.d⟩

def sha1Rounds : Nat → List Nat → Sha1State → Sha1State
  | _, [], s => s
  | t, w :: ws, s => sha1Rounds (t + 1) ws (sha1Step t w s)

def sha1Block (s : Sha1State) (block : List Nat) : Sha1State :=
  let w := (sha1SchedRev 64 ((chunksOf 4 block).map fromBytesBE).reverse).reverse
  let r := sha1Rounds 0 w s
  ⟨(s.a + r.a) % 2 ^ 32, (s.b + r.b) % 2 ^ 32, (s.c + r.c) % 2 ^ 32,
   (s.d + r.d) % 2 ^ 32, (s.e + r.e) % 2 ^ 32⟩

def sha1Init : Sha1State := ⟨1732584193, 4023233417, 2562383102, 271733878, 3285377520⟩

/-- SHA-1 digest (20 bytes) of a byte string. -/
def sha1Hash (msg : List Nat) : List Nat :=
  let s := (chunksOf 64 (shaPad 64 8 msg)).foldl sha1Block sha1Init
  toBytesBE 4 s.a ++ toBytesBE 4 s.b ++ toBytesBE 4 s.c ++ toBytesBE 4 s.d ++ toBytesBE 4 s.e

/-! ### SHA-256 (crypto/sha256) -/

structure Sha256State where
  a : Nat
  b : Nat
  c : Nat
  d : Nat
  e : Nat
  f : Nat
  g : Nat
  h : Nat

def K256 : List Nat := [
  1116352408, 1899447441, 3049323471, 3921009573,
  961987163, 1508970993, 2453635748, 2870763221,
  3624381080, 310598401, 607225278, 1426881987,
  1925078388, 2162078206, 2614888103, 3248222580,
  3835390401, 4022224774, 264347078, 604807628,
  770255983, 1249150122, 1555081692, 1996064986,
  2554220882, 2821834349, 2952996808, 3210313671,
  3336571891, 3584528711, 113926993, 338241895,
  666307205, 773529912, 1294757372, 1396182291,
  1695183700, 1986661051, 2177026350, 2456956037,
  2730485921, 2820302411, 3259730800, 3345764771,
  3516065817, 3600352804, 4094571909, 275423344,
  430227734, 506948616, 659060556, 883997877,
  958139571, 1322822218, 1537002063, 1747873779,
  1955562222, 2024104815, 2227730452, 2361852424,
  2428436474, 2756734187, 3204031479, 3329325298]

def ch32 (e f g : Nat) : Nat := (e &&& f) ^^^ (not32 e &&& g)

def maj32 (a b c : Nat) : Nat := (a &&& b) ^^^ (a &&& c) ^^^ (b &&& c)

def bsig0 (x : Nat) : Nat := rotr32 2 x ^^^ rotr32 13 x ^^^ rotr32 22 x

def bsig1 (x : Nat) : Nat := rotr32 6 x ^^^ rotr32 11 x ^^^ rotr32 25 x

def ssig0 (x : Nat) : Nat := rotr32 7 x ^^^ rotr32 18 x ^^^ (x >>> 3)

def ssig1 (x : Nat) : Nat := rotr32 17 x ^^^ rotr32 19 x ^^^ (x >>> 10)

/-- SHA-256 message-schedule extension; the word list is kept newest-first. -/
def sha256SchedRev : Nat → List Nat → List Nat
  | 0, ws => ws
  | n + 1, ws =>
    sha256SchedRev n
      (((ssig1 (ws.getD 1 0) + ws.getD 6 0 + ssig0 (ws.getD 14 0) + ws.getD 15 0) % 2 ^ 32) :: ws)

def sha256Step (kw : Nat × Nat) (s : Sha256State) : Sha256State :=
  let t1 := (s.h + bsig1 s.e + ch32 s.e s.f s.g + kw.1 + kw.2) % 2 ^ 32
  let t2 := (bsig0 s.a + maj32 s.a s.b s.c) % 2 ^ 32
  ⟨(t1 + t2) % 2 ^ 32, s.a, s.b, s.c, (s.d + t1) % 2 ^ 32, s.e, s.f, s.g⟩

def sha256Rounds : List (Nat × Nat) → Sha256State → Sha256State
  | [], s => s
  | kw :: rest, s => sha256Rounds rest (sha256Step kw s)

def sha256Block (s : Sha256State) (block : List Nat) : Sha256State :=
  let w := (sha256SchedRev 48 ((chunksOf 4 block).map fromBytesBE).reverse).reverse
  let r := sha256Rounds (K256.zip w) s
  ⟨(s.a + r.a) % 2 ^ 32, (s.b + r.b) % 2 ^ 32, (s.c + r.c) % 2 ^ 32,
   (s.d + r.d) % 2 ^ 32, (s.e + r.e) % 2 ^ 32, (s.f + r.f) % 2 ^ 32,
   (s.g + r.g) % 2 ^ 32, (s.h + r.h) % 2 ^ 32⟩

def sha256Init : Sha256State :=
  ⟨1779033703, 3144134277, 1013904242, 2773480762, 1359893119, 2600822924, 528734635, 1541459225⟩

/-- SHA-256 digest (32 bytes) of a byte string. -/
def sha256Hash (msg : List Nat) : List Nat :=
  let s := (chunksOf 64 (shaPad 64 8 msg)).foldl sha256Block sha256Init
  toBytesBE 4 s.a ++ toBytesBE 4 s.b ++ toBytesBE 4 s.c ++ toBytesBE 4 s.d ++
  toBytesBE 4 s.e ++ toBytesBE 4 s.f ++ toBytesBE 4 s.g ++ toBytesBE 4 s.h

/-! ### SHA-512 (crypto/sha512) -/

def K512 : List Nat := [
  4794697086780616226, 8158064640168781261, 13096744586834688815, 16840607885511220156,
  4131703408338449720, 6480981068601479193, 10538285296894168987, 12329834152419229976,
  15566598209576043074, 1334009975649890238, 2608012711638119052, 6128411473006802146,
  8268148722764581231, 9286055187155687089, 11230858885718282805, 13951009754708518548,
  16472876342353939154, 17275323862435702243, 1135362057144423861, 2597628984639134821,
  3308224258029322869, 5365058923640841347, 6679025012923562964, 8573033837759648693,
  10970295158949994411, 12119686244451234320, 12683024718118986047, 13788192230050041572,
  14330467153632333762, 15395433587784984357, 489312712824947311, 1452737877330783856,
  2861767655752347644, 3322285676063803686, 5560940570517711597, 5996557281743188959,
  7280758554555802590, 8532644243296465576, 9350256976987008742, 10552545826968843579,
  11727347734174303076, 12113106623233404929, 14000437183269869457, 14369950271660146224,
  15101387698204529176, 15463397548674623760, 17586052441742319658, 1182934255886127544,
  1847814050463011016, 2177327727835720531, 2830643537854262169, 3796741975233480872,
  4115178125766777443, 5681478168544905931, 6601373596472566643, 7507060721942968483,
  8399075790359081724, 8693463985226723168, 9568029438360202098, 10144078919501101548,
  10430055236837252648, 11840083180663258601, 13761210420658862357, 14299343276471374635,
  14566680578165727644, 15097957966210449927, 16922976911328602910, 17689382322260857208,
  500013540394364858, 748580250866718886, 1242879168328830382, 1977374033974150939,
  2944078676154940804, 3659926193048069267, 4368137639120453308, 4836135668995329356,
  5532061633213252278, 6448918945643986474, 6902733635092675308, 7801388544844847127]

def ch64 (e f g : Nat) : Nat := (e &&& f) ^^^ (not64 e &&& g)

def maj64 (a b c : Nat) : Nat := (a &&& b) ^^^ (a &&& c) ^^^ (b &&& c)

def bsig0w64 (x : Nat) : Nat := rotr64 28 x ^^^ rotr64 34 x ^^^ rotr64 39 x

def bsig1w64 (x : Nat) : Nat := rotr64 14 x ^^^ rotr64 18 x ^^^ rotr64 41 x

def ssig0w64 (x : Nat) : Nat := rotr64 1 x ^^^ rotr64 8 x ^^^ (x >>> 7)

def ssig1w64 (x : Nat) : Nat := rotr64 19 x ^^^ rotr64 61 x ^^^ (x >>> 6)

/-- SHA-512 message-schedule extension; the word list is kept newest-first. -/
def sha512SchedRev : Nat → List Nat → List Nat
  | 0, ws => ws
  | n + 1, ws =>
    sha512SchedRev n
      (((ssig1w64 (ws.getD 1 0) + ws.getD 6 0 + ssig0w64 (ws.getD 14 0) + ws.getD 15 0) % 2 ^ 64)
        :: ws)

def sha512Step (kw : Nat × Nat) (s : Sha256State) : Sha256State :=
  let t1 := (s.h + bsig1w64 s.e + ch64 s.e s.f s.g + kw.1 + kw.2) % 2 ^ 64
  let t2 := (bsig0w64 s.a + maj64 s.a s.b s.c) % 2 ^ 64
  ⟨(t1 + t2) % 2 ^ 64, s.a, s.b, s.c, (s.d + t1) % 2 ^ 64, s.e, s.f, s.g⟩

def sha512Rounds : List (Nat × Nat) → Sha256State → Sha256State
  | [], s => s
  | kw :: rest, s => sha512Rounds rest (sha512Step kw s)

def sha512Block (s : Sha256State) (block : List Nat) : Sha256State :=
  let w := (sha512SchedRev 64 ((chunksOf 8 block).map fromBytesBE).reverse).reverse
  let r := sha512Rounds (K512.zip w) s
  ⟨(s.a + r.a) % 2 ^ 64, (s.b + r.b) % 2 ^ 64, (s.c + r.c) % 2 ^ 64,
   (s.d + r.d) % 2 ^ 64, (s.e + r.e) % 2 ^ 64, (s.f + r.f) % 2 ^ 64,
   (s.g + r.g) % 2 ^ 64, (s.h + r.h) % 2 ^ 64⟩

def sha512Init : Sha256State :=
  ⟨7640891576956012808, 13503953896175478587, 4354685564936845355, 11912009170470909681,
   5840696475078001361, 11170449401992604703, 2270897969802886507, 6620516959819538809⟩

/-- SHA-512 digest (64 bytes) of a byte string. -/
def sha512Hash (msg : List Nat) : List Nat :=
  let s := (chunksOf 128 (shaPad 128 16 msg)).foldl sha512Block sha512Init
  toBytesBE 8 s.a ++ toBytesBE 8 s.b ++ toBytesBE 8 s.c ++ toBytesBE 8 s.d ++
  toBytesBE 8 s.e ++ toBytesBE 8 s.f ++ toBytesBE 8 s.g ++ toBytesBE 8 s.h

/-! ### Hash-function records and HMAC (hash.Hash, crypto/hmac)

A `HashFunc` plays the role of Go's `func() hash.Hash` values `sha1.New`,
`sha256.New`, `sha512.New`: it packages the block size, the digest size, and
the digest computation. -/

structure HashFunc where
  blockSize : Nat
  size : Nat
  hash : List Nat → List Nat

def sha1New : HashFunc := ⟨64, 20, sha1Hash⟩

def sha256New : HashFunc := ⟨64, 32, sha256Hash⟩

def sha512New : HashFunc := ⟨128, 64, sha512Hash⟩

/-- genMAC generates the HMAC signature for a message provided the secret key
and hashFunc (webhooks source, `genMAC`; the HMAC construction itself is
crypto/hmac: long keys are hashed, the key is zero-padded to the block size,
and the digest is `H(opad ++ H(ipad ++ message))`). -/
def genMAC (message key : List Nat) (hashFunc : HashFunc) : List Nat :=
  let k0 := if key.length > hashFunc.blockSize then hashFunc.hash key else key
  let kp := k0 ++ List.replicate (hashFunc.blockSize - k0.length) 0
  hashFunc.hash ((kp.map (fun b => b ^^^ 0x5c)) ++
    hashFunc.hash ((kp.map (fun b => b ^^^ 0x36)) ++ message))

/-! ### Constant-time comparison (crypto/subtle, used by hmac.Equal) -/

/-- crypto/subtle's `ConstantTimeByteEq`: 1 if the bytes are equal, else 0,
computed arithmetically (`(uint32(x^y) - 1) >> 31` with 32-bit wraparound). -/
def ctByteEq (x y : Nat) : Nat := (((x ^^^ y) + (2 ^ 32 - 1)) % 2 ^ 32) >>> 31

/-- The accumulation loop of crypto/subtle's `ConstantTimeCompare`:
OR together the XOR of every byte pair. -/
def ctAcc (x y : List Nat) : Nat :=
  (x.zip y).foldl (fun v p => v ||| (p.1 ^^^ p.2)) 0

/-- crypto/subtle's `ConstantTimeCompare`: 0 when lengths differ, else
`ConstantTimeByteEq` of the accumulated difference with 0. -/
def constantTimeCompare (x y : List Nat) : Nat :=
  if x.length = y.length then ctByteEq (ctAcc x y) 0 else 0

/-- An instrumented run of the same comparison loop, returning the
accumulated value together with the number of loop iterations executed. -/
def ctLoop : List Nat → List Nat → Nat → Nat × Nat
  | [], _, v => (v, 0)
  | _ :: _, [], v => (v, 0)
  | a :: x, b :: y, v =>
    let r := ctLoop x y (v ||| (a ^^^ b))
    (r.1, r.2 + 1)

/-- `constantTimeCompare` with its loop-iteration count made observable. -/
def ctCompareRun (x y : List Nat) : Nat × Nat :=
  if x.length = y.length then
    let r := ctLoop x y 0
    (ctByteEq r.1 0, r.2)
  else (0, 0)

/-- hmac.Equal: `subtle.ConstantTimeCompare(mac1, mac2) == 1`. -/
def hmacEqual (mac1 mac2 : List Nat) : Bool := constantTimeCompare mac1 mac2 == 1

/-- checkMAC reports whether messageMAC is a valid HMAC tag for message
(webhooks source, `checkMAC`). -/
def checkMAC (message messageMAC key : List Nat) (hashFunc : HashFunc) : Bool :=
  hmacEqual messageMAC (genMAC message key hashFunc)

/-! ### Hex encoding (encoding/hex) -/

/-- Lowercase hex digit character code of a value below 16. -/
def hexDigitChar (n : Nat) : Nat := if n < 10 then 48 + n else 87 + n

/-- encoding/hex's `EncodeToString` over bytes. -/
def hexEncode (b : List Nat) : List Nat :=
  b.foldr (fun x acc => hexDigitChar (x / 16) :: hexDigitChar (x % 16) :: acc) []

/-- Value of one hex digit character (`0-9`, `a-f`, `A-F`), as in
encoding/hex's `fromHexChar`. -/
def hexDigitVal (c : Nat) : Option Nat :=
  if 48 ≤ c ∧ c ≤ 57 then some (c - 48)
  else if 97 ≤ c ∧ c ≤ 102 then some (c - 87)
  else if 65 ≤ c ∧ c ≤ 70 then some (c - 55)
  else none

/-- encoding/hex's `DecodeString`: fails on an odd-length input or a non-hex
character (the distinct Go error values are collapsed to `none`). -/
def hexDecode : List Nat → Option (List Nat)
  | [] => some []
  | [_] => none
  | c1 :: c2 :: rest =>
    match hexDigitVal c1, hexDigitVal c2, hexDecode rest with
    | some a, some b, some tail => some ((16 * a + b) :: tail)
    | _, _, _ => none

/-! ### Signature parsing and verification (webhooks source) -/

/-- The errors produced along the webhook validation and decoding paths.
Constructors mirror the distinct error sites of the Go source; the
human-readable message text is abstracted, the data interpolated into it is
kept. -/
inductive WebhookErr where
  | errMissingSignature : WebhookErr
  | errParsingSignature : List Nat → WebhookErr
  | errUnknownHashType : List Nat → WebhookErr
  | errDecodingSignature : List Nat → WebhookErr
  | errSignatureCheckFailed : WebhookErr
  | errUnsupportedContentType : List Nat → WebhookErr
  | errBodyRead : WebhookErr
  | errInvalidSemicolon : WebhookErr
  | errEscape : List Nat → WebhookErr
  | errMalformedPayload : WebhookErr
  | errUnknownEventKey : List Nat → WebhookErr
deriving DecidableEq

/-- The spec's error taxonomy (section 7), used to classify the code's
error values. -/
inductive ErrClass where
  | missingSignature : ErrClass
  | malformedSignature : ErrClass
  | unknownAlgorithm : ErrClass
  | signatureMismatch : ErrClass
  | unsupportedContentType : ErrClass
  | readFailure : ErrClass
  | queryParseFailure : ErrClass
  | malformedPayload : ErrClass
  | unknownEventKey : ErrClass
deriving DecidableEq

/-- Classification of the code's error values under the spec's taxonomy:
both the missing-`=` error and the hex-decoding error are `MalformedSignature`. -/
def classify : WebhookErr → ErrClass
  | .errMissingSignature => .missingSignature
  | .errParsingSignature _ => .malformedSignature
  | .errUnknownHashType _ => .unknownAlgorithm
  | .errDecodingSignature _ => .malformedSignature
  | .errSignatureCheckFailed => .signatureMismatch
  | .errUnsupportedContentType _ => .unsupportedContentType
  | .errBodyRead => .readFailure
  | .errInvalidSemicolon => .queryParseFailure
  | .errEscape _ => .queryParseFailure
  | .errMalformedPayload => .malformedPayload
  | .errUnknownEventKey _ => .unknownEventKey

/-- strings.SplitN(s, "=", 2), in cut form: `some (before, after)` at the
first `=` (byte 61), `none` when no `=` occurs (in which case SplitN would
return a single part and the source's length test fails). -/
def cutEq : List Nat → Option (List Nat × List Nat)
  | [] => none
  | c :: rest =>
    if c = 61 then some ([], rest)
    else match cutEq rest with
      | some (a, b) => some (c :: a, b)
      | none => none

def sha1Tag : List Nat := bytes "sha1"

def sha256Tag : List Nat := bytes "sha256"

def sha512Tag : List Nat := bytes "sha512"

/-- The algorithm-selecting switch of `messageMAC`: the recognized prefix
tags and their hash constructors. -/
def hashForTag (p : List Nat) : Option HashFunc :=
  if p = sha1Tag then some sha1New
  else if p = sha256Tag then some sha256New
  else if p = sha512Tag then some sha512New
  else none

/-- messageMAC returns the hex-decoded HMAC tag from the signature and its
corresponding hash function (webhooks source, `messageMAC`). -/
def messageMAC (signature : List Nat) : Except WebhookErr (List Nat × HashFunc) :=
  if signature = [] then .error .errMissingSignature
  else
    match cutEq signature with
    | none => .error (.errParsingSignature signature)
    | some (p, hexPart) =>
      match hashForTag p with
      | none => .error (.errUnknownHashType p)
      | some hf =>
        match hexDecode hexPart with
        | none => .error (.errDecodingSignature signature)
        | some buf => .ok (buf, hf)

/-- ValidateSignature validates the signature for the given payload
(webhooks source, `ValidateSignature`). -/
def ValidateSignature (signature payload secretToken : List Nat) : Except WebhookErr Unit :=
  match messageMAC signature with
  | .error e => .error e
  | .ok (mac, hashFunc) =>
    if checkMAC payload mac secretToken hashFunc then .ok () else .error .errSignatureCheckFailed

/-! ### Query-string escaping and parsing (net/url) -/

/-- The bytes QueryEscape leaves unescaped: ASCII alphanumerics and
`-`, `_`, `.`, `~` (net/url's `shouldEscape` in query-component mode). -/
def isUnreservedQueryByte (b : Nat) : Bool :=
  (65 ≤ b && b ≤ 90) || (97 ≤ b && b ≤ 122) || (48 ≤ b && b ≤ 57) ||
  b == 45 || b == 95 || b == 46 || b == 126

/-- Uppercase hex digit character code of a value below 16. -/
def upperHexChar (n : Nat) : Nat := if n < 10 then 48 + n else 55 + n

/-- One byte of net/url's `QueryEscape` output: space becomes `+`, unreserved
bytes pass through, everything else becomes `%XX` with uppercase hex. -/
def escapeByte (b : Nat) : List Nat :=
  if b = 32 then [43]
  else if isUnreservedQueryByte b then [b]
  else [37, upperHexChar (b / 16), upperHexChar (b % 16)]

/-- net/url's `QueryEscape` over bytes. -/
def queryEscape (s : List Nat) : List Nat := s.foldr (fun b acc => escapeByte b ++ acc) []

/-- net/url's `QueryUnescape` (query-component mode): `+` becomes space,
`%XX` decodes from hex, an incomplete or invalid `%` escape is an error
(the `EscapeError` payload here is the remaining input rather than Go's
three-character window). -/
def queryUnescape : List Nat → Except WebhookErr (List Nat)
  | [] => .ok []
  | c :: t =>
    if c = 37 then
      match t with
      | c1 :: c2 :: t2 =>
        match hexDigitVal c1, hexDigitVal c2 with
        | some a, some b => (queryUnescape t2).map (fun l => (16 * a + b) :: l)
        | _, _ => .error (.errEscape (c :: t))
      | _ => .error (.errEscape (c :: t))
    else if c = 43 then (queryUnescape t).map (fun l => 32 :: l)
    else (queryUnescape t).map (fun l => c :: l)

/-- Split on `&` (byte 38); `splitOnAmp l` is the list of chunks the
`strings.Cut` loop of net/url's `parseQuery` iterates over. -/
def splitOnAmp : List Nat → List (List Nat)
  | [] => [[]]
  | b :: rest =>
    let r := splitOnAmp rest
    if b = 38 then [] :: r
    else
      match r with
      | c :: cs => (b :: c) :: cs
      | [] => [[b]]

/-- strings.Cut(s, "="), total form: `(before, after)` at the first `=`, and
`(s, "")` when there is none. -/
def cutEqTotal (s : List Nat) : List Nat × List Nat :=
  match cutEq s with
  | some (a, b) => (a, b)
  | none => (s, [])

/-- One iteration of net/url's `parseQuery` loop: a chunk containing `;` or
failing to unescape records the first error and is skipped; an empty chunk is
skipped; otherwise the unescaped key/value pair is appended. -/
def parseQueryStep (acc : List (List Nat × List Nat) × Option WebhookErr) (chunk : List Nat) :
    List (List Nat × List Nat) × Option WebhookErr :=
  if chunk.contains 59 then (acc.1, acc.2 <|> some .errInvalidSemicolon)
  else if chunk = [] then acc
  else
    let kv := cutEqTotal chunk
    match queryUnescape kv.1 with
    | .error e => (acc.1, acc.2 <|> some e)
    | .ok key =>
      match queryUnescape kv.2 with
      | .error e => (acc.1, acc.2 <|> some e)
      | .ok value => (acc.1 ++ [(key, value)], acc.2)

/-- net/url's `ParseQuery`: the collected key/value pairs (in insertion
order) and the first error encountered, if any. -/
def parseQuery (query : List Nat) : List (List Nat × List Nat) × Option WebhookErr :=
  (splitOnAmp query).foldl parseQueryStep ([], none)

/-- url.Values.Get: the first value recorded for the key, or empty. -/
def valuesGet (vals : List (List Nat × List Nat)) (key : List Nat) : List Nat :=
  match vals.find? (fun p => p.1 == key) with
  | some p => p.2
  | none => []

/-! ### ValidatePayload (webhooks source) -/

def payloadFormParam : List Nat := bytes "payload"

def jsonContentType : List Nat := bytes "application/json"

def formContentType : List Nat := bytes "application/x-www-form-urlencoded"

/-- An inbound webhook request, as `ValidatePayload` observes it: the
Content-Type header, the body read result (`none` models an `io` read
failure), and the relevant header values (`Header.Get` yields the empty
string for an absent header). -/
structure Request where
  contentType : List Nat
  body : Option (List Nat)
  signature : List Nat
  eventKey : List Nat
  requestID : List Nat

/-- The content-type switch of `ValidatePayload`: produces the raw body
(which Bitbucket Server signs) together with the payload (the body itself
for JSON, the `payload` form parameter for form-encoded bodies). -/
def extractStep (r : Request) : Except WebhookErr (List Nat × List Nat) :=
  if r.contentType = jsonContentType then
    match r.body with
    | none => .error .errBodyRead
    | some body => .ok (body, body)
  else if r.contentType = formContentType then
    match r.body with
    | none => .error .errBodyRead
    | some body =>
      match parseQuery body with
      | (_, some e) => .error e
      | (form, none) => .ok (body, valuesGet form payloadFormParam)
  else .error (.errUnsupportedContentType r.contentType)

/-- ValidatePayload validates an incoming webhook request and returns the
payload (webhooks source, `ValidatePayload`). The result keeps Go's
`(payload, err)` pair: every error path returns `nil` (here `none`) for the
payload. -/
def ValidatePayload (r : Request) (secretToken : List Nat) :
    Option (List Nat) × Option WebhookErr :=
  match extractStep r with
  | .error e => (none, some e)
  | .ok (body, payload) =>
    if secretToken.length > 0 then
      match ValidateSignature r.signature body secretToken with
      | .error e => (none, some e)
      | .ok _ => (some payload, none)
    else (some payload, none)

/-- WebHookType returns the event key of the webhook request. -/
def WebHookType (r : Request) : List Nat := r.eventKey

/-- RequestID returns the unique ID for the webhook request. -/
def RequestID (r : Request) : List Nat := r.requestID

/-! ### JSON values and syntax (encoding/json, as exercised by ParseWebHook)

JSON texts are parsed into a `Json` tree. Number literals are kept as raw
bytes (none of the decoded top-level event fields is numeric). String
contents are unquoted with Go's escape handling; bytes outside escapes are
copied verbatim (Go would additionally replace invalid UTF-8 sequences with
U+FFFD; the payloads dealt with here are treated at byte level). -/

inductive Json where
  | null : Json
  | bool : Bool → Json
  | num : List Nat → Json
  | str : List Nat → Json
  | arr : List Json → Json
  | obj : List (List Nat × Json) → Json

def isWsByte (c : Nat) : Bool := c == 32 || c == 9 || c == 10 || c == 13

def skipWs : List Nat → List Nat
  | [] => []
  | c :: rest => if isWsByte c then skipWs rest else c :: rest

/-- UTF-8 encoding of a code point. -/
def utf8Encode (n : Nat) : List Nat :=
  if n < 0x80 then [n]
  else if n < 0x800 then [0xc0 ||| (n >>> 6), 0x80 ||| (n &&& 0x3f)]
  else if n < 0x10000 then
    [0xe0 ||| (n >>> 12), 0x80 ||| ((n >>> 6) &&& 0x3f), 0x80 ||| (n &&& 0x3f)]
  else
    [0xf0 ||| (n >>> 18), 0x80 ||| ((n >>> 12) &&& 0x3f),
     0x80 ||| ((n >>> 6) &&& 0x3f), 0x80 ||| (n &&& 0x3f)]

/-- Single-character JSON string escapes. -/
def escChar (e : Nat) : Option Nat :=
  if e = 34 then some 34
  else if e = 92 then some 92
  else if e = 47 then some 47
  else if e = 98 then some 8
  else if e = 102 then some 12
  else if e = 110 then some 10
  else if e = 114 then some 13
  else if e = 116 then some 9
  else none

def hex4 (a b c d : Nat) : Option Nat :=
  match hexDigitVal a, hexDigitVal b, hexDigitVal c, hexDigitVal d with
  | some va, some vb, some vc, some vd => some (4096 * va + 256 * vb + 16 * vc + vd)
  | _, _, _, _ => none

/-- The body of a JSON string after the opening quote: the decoded content
and the input after the closing quote. Mirrors encoding/json's unquoting:
control bytes and invalid escapes are rejected; `\uXXXX` surrogate pairs are
combined and unpaired surrogates become U+FFFD. -/
def jsonStrLoop : Nat → List Nat → Option (List Nat × List Nat)
  | 0, _ => none
  | _, [] => none
  | _ + 1, 34 :: rest => some ([], rest)
  | fuel + 1, 92 :: rest =>
    match rest with
    | 117 :: a :: b :: c :: d :: t =>
      match hex4 a b c d with
      | none => none
      | some r =>
        if 0xd800 ≤ r ∧ r < 0xe000 then
          match t with
          | 92 :: 117 :: a2 :: b2 :: c2 :: d2 :: t2 =>
            match hex4 a2 b2 c2 d2 with
            | some r2 =>
              if r < 0xdc00 ∧ 0xdc00 ≤ r2 ∧ r2 < 0xe000 then
                (jsonStrLoop fuel t2).map
                  (fun p => (utf8Encode (0x10000 + (r - 0xd800) * 0x400 + (r2 - 0xdc00)) ++ p.1, p.2))
              else (jsonStrLoop fuel t).map (fun p => (utf8Encode 0xfffd ++ p.1, p.2))
            | none => (jsonStrLoop fuel t).map (fun p => (utf8Encode 0xfffd ++ p.1, p.2))
          | _ => (jsonStrLoop fuel t).map (fun p => (utf8Encode 0xfffd ++ p.1, p.2))
        else (jsonStrLoop fuel t).map (fun p => (utf8Encode r ++ p.1, p.2))
    | e :: t =>
      match escChar e with
      | some x => (jsonStrLoop fuel t).map (fun p => (x :: p.1, p.2))
      | none => none
    | [] => none
  | fuel + 1, c :: rest =>
    if c < 32 then none
    else (jsonStrLoop fuel rest).map (fun p => (c :: p.1, p.2))

/-- Unquote a JSON string body (the fuel is ample: every step consumes a
byte). -/
def jsonStr (s : List Nat) : Option (List Nat × List Nat) := jsonStrLoop (s.length + 1) s

def isDigitByte (c : Nat) : Bool := 48 ≤ c && c ≤ 57

/-- JSON number literal: `-? (0 | [1-9][0-9]*) (. [0-9]+)? ([eE][+-]?[0-9]+)?`.
Returns the literal bytes and the rest of the input. -/
def jsonNum (s : List Nat) : Option (List Nat × List Nat) :=
  let (sign, s1) :=
    match s with
    | 45 :: t => (([45] : List Nat), t)
    | _ => ([], s)
  match s1 with
  | [] => none
  | c :: t =>
    let int? : Option (List Nat × List Nat) :=
      if c = 48 then some ([48], t)
      else if 49 ≤ c ∧ c ≤ 57 then some (c :: t.takeWhile isDigitByte, t.dropWhile isDigitByte)
      else none
    match int? with
    | none => none
    | some (ip, afterInt) =>
      let frac? : Option (List Nat × List Nat) :=
        match afterInt with
        | 46 :: t2 =>
          let ds := t2.takeWhile isDigitByte
          if ds = [] then none else some (46 :: ds, t2.dropWhile isDigitByte)
        | _ => some ([], afterInt)
      match frac? with
      | none => none
      | some (fp, afterFrac) =>
        let exp? : Option (List Nat × List Nat) :=
          match afterFrac with
          | e :: t3 =>
            if e = 101 ∨ e = 69 then
              let (sgn, t4) :=
                match t3 with
                | 43 :: t5 => (([43] : List Nat), t5)
                | 45 :: t5 => (([45] : List Nat), t5)
                | _ => ([], t3)
              let ds := t4.takeWhile isDigitByte
              if ds = [] then none else some (e :: (sgn ++ ds), t4.dropWhile isDigitByte)
            else some ([], afterFrac)
          | [] => some ([], afterFrac)
        match exp? with
        | none => none
        | some (ep, rest) => some (sign ++ ip ++ fp ++ ep, rest)

mutual

/-- One JSON value, fuel-bounded (fuel covers nesting depth). -/
def jsonVal : Nat → List Nat → Option (Json × List Nat)
  | 0, _ => none
  | fuel + 1, s =>
    match skipWs s with
    | [] => none
    | c :: rest =>
      if c = 110 then
        match rest with
        | 117 :: 108 :: 108 :: t => some (.null, t)
        | _ => none
      else if c = 116 then
        match rest with
        | 114 :: 117 :: 101 :: t => some (.bool true, t)
        | _ => none
      else if c = 102 then
        match rest with
        | 97 :: 108 :: 115 :: 101 :: t => some (.bool false, t)
        | _ => none
      else if c = 34 then (jsonStr rest).map (fun p => (.str p.1, p.2))
      else if c = 91 then
        match skipWs rest with
        | 93 :: t => some (.arr [], t)
        | s2 => (jsonArr fuel s2).map (fun p => (.arr p.1, p.2))
      else if c = 123 then
        match skipWs rest with
        | 125 :: t => some (.obj [], t)
        | s2 => (jsonObj fuel s2).map (fun p => (.obj p.1, p.2))
      else (jsonNum (c :: rest)).map (fun p => (.num p.1, p.2))

/-- Comma-separated JSON array elements up to `]`. -/
def jsonArr : Nat → List Nat → Option (List Json × List Nat)
  | 0, _ => none
  | fuel + 1, s =>
    match jsonVal fuel s with
    | none => none
    | some (v, rest) =>
      match skipWs rest with
      | 44 :: t => (jsonArr fuel t).map (fun p => (v :: p.1, p.2))
      | 93 :: t => some ([v], t)
      | _ => none

/-- Comma-separated JSON object members up to `}`. -/
def jsonObj : Nat → List Nat → Option (List (List Nat × Json) × List Nat)
  | 0, _ => none
  | fuel + 1, s =>
    match skipWs s with
    | 34 :: rest =>
      match jsonStr rest with
      | none => none
      | some (key, rest2) =>
        match skipWs rest2 with
        | 58 :: rest3 =>
          match jsonVal fuel rest3 with
          | none => none
          | some (v, rest4) =>
            match skipWs rest4 with
            | 44 :: t => (jsonObj fuel t).map (fun p => ((key, v) :: p.1, p.2))
            | 125 :: t => some ([(key, v)], t)
            | _ => none
        | _ => none
    | _ => none

end

/-- Parse a complete JSON text: one value with only whitespace after it
(json.Unmarshal validates the whole input). -/
def jsonParse (data : List Nat) : Option Json :=
  match jsonVal (2 * data.length + 2) data with
  | some (v, rest) => if skipWs rest = [] then some v else none
  | none => none

/-! ### Event records (event_types.go) and their structural decoding

The records carry the fields of the Go structs `ParseWebHook` decodes into.
String fields (and `time.Time` fields, which Go decodes from a JSON string,
its RFC3339 format validation being a stdlib detail not modelled here) are
byte strings; fields that are pointers to further structs (`*User`,
`*Repository`, `*PullRequest`, `*PullRequestUser`, `*PullRequestTarget`) are
kept as the parsed JSON object (`none` for JSON null or an absent key), their
recursive field-by-field decoding being below the granularity these claims
need. Decoding is structural exactly as in encoding/json: unknown keys are
ignored, missing keys leave the zero value, a wrong JSON type for a field is
an error, matching is ASCII-case-insensitive with later duplicate keys
winning. -/

structure RefRec where
  id : List Nat
  displayID : List Nat
  refType : List Nat

structure PushEventChange where
  ref : RefRec
  refID : List Nat
  fromHash : List Nat
  toHash : List Nat
  changeType : List Nat

structure PushEvent where
  eventKey : List Nat
  date : List Nat
  actor : Option Json
  repository : Option Json
  changes : List PushEventChange

structure RepositoryModifiedEvent where
  eventKey : List Nat
  date : List Nat
  actor : Option Json
  old : Option Json
  new : Option Json

structure RepositoryForkedEvent where
  eventKey : List Nat
  date : List Nat
  actor : Option Json
  repository : Option Json

structure PullRequestEvent where
  eventKey : List Nat
  date : List Nat
  actor : Option Json
  pullRequest : Option Json

structure PullRequestReviewerEvent where
  eventKey : List Nat
  date : List Nat
  actor : Option Json
  pullRequest : Option Json
  participant : Option Json
  previousStatus : List Nat

structure PullRequestModifiedEvent where
  eventKey : List Nat
  date : List Nat
  actor : Option Json
  pullRequest : Option Json
  previousTitle : List Nat
  previousDescription : List Nat
  previousTarget : Option Json

structure PullRequestBranchUpdatedEvent where
  eventKey : List Nat
  date : List Nat
  actor : Option Json
  pullRequest : Option Json
  previousFromHash : List Nat

/-- ASCII lower-casing of a byte. -/
def lowerByte (b : Nat) : Nat := if 65 ≤ b ∧ b ≤ 90 then b + 32 else b

/-- encoding/json's field-name matching: ASCII-case-insensitive equality. -/
def eqFold (a b : List Nat) : Bool := a.map lowerByte == b.map lowerByte

/-- The JSON value decoded into the struct field tagged `name`: the last
object member whose key matches case-insensitively (later members overwrite
earlier ones), or `none` when the key is absent. -/
def findField (fields : List (List Nat × Json)) (name : List Nat) : Option Json :=
  match (fields.reverse).find? (fun p => eqFold p.1 name) with
  | some p => some p.2
  | none => none

/-- Decode a JSON value into a Go `string` field: absent or null keeps the
zero value, a string is taken as is, anything else is a type error. -/
def decStr (j : Option Json) : Except WebhookErr (List Nat) :=
  match j with
  | none => .ok []
  | some .null => .ok []
  | some (.str s) => .ok s
  | some _ => .error .errMalformedPayload

/-- Decode a JSON value into a `time.Time` field: like a string field
(time.Time.UnmarshalJSON takes a quoted string or null and rejects other
shapes; its RFC3339 format check is abstracted). -/
def decTime (j : Option Json) : Except WebhookErr (List Nat) := decStr j

/-- Decode a JSON value into a pointer-to-struct field: absent or null gives
a nil pointer, an object gives the allocated struct (kept as the raw parsed
object), anything else is a type error. -/
def decPtr (j : Option Json) : Except WebhookErr (Option Json) :=
  match j with
  | none => .ok none
  | some .null => .ok none
  | some (.obj fs) => .ok (some (.obj fs))
  | some _ => .error .errMalformedPayload

def refZero : RefRec := ⟨[], [], []⟩

def decodeRef (j : Option Json) : Except WebhookErr RefRec :=
  match j with
  | none => .ok refZero
  | some .null => .ok refZero
  | some (.obj fs) => do
    let i ← decStr (findField fs (bytes "id"))
    let d ← decStr (findField fs (bytes "displayId"))
    let t ← decStr (findField fs (bytes "type"))
    .ok ⟨i, d, t⟩
  | some _ => .error .errMalformedPayload

def changeZero : PushEventChange := ⟨refZero, [], [], [], []⟩

def decodeChange (j : Json) : Except WebhookErr PushEventChange :=
  match j with
  | .null => .ok changeZero
  | .obj fs => do
    let r ← decodeRef (findField fs (bytes "ref"))
    let ri ← decStr (findField fs (bytes "refId"))
    let fh ← decStr (findField fs (bytes "fromHash"))
    let th ← decStr (findField fs (bytes "toHash"))
    let ty ← decStr (findField fs (bytes "type"))
    .ok ⟨r, ri, fh, th, ty⟩
  | _ => .error .errMalformedPayload

/-- Decode a JSON value into a `[]PushEventChange` field. -/
def decChanges (j : Option Json) : Except WebhookErr (List PushEventChange) :=
  match j with
  | none => .ok []
  | some .null => .ok []
  | some (.arr xs) => xs.mapM decodeChange
  | some _ => .error .errMalformedPayload

def pushZero : PushEvent := ⟨[], [], none, none, []⟩

def decodePushEvent (j : Json) : Except WebhookErr PushEvent :=
  match j with
  | .null => .ok pushZero
  | .obj fs => do
    let ek ← decStr (findField fs (bytes "eventKey"))
    let dt ← decTime (findField fs (bytes "date"))
    let ac ← decPtr (findField fs (bytes "actor"))
    let rp ← decPtr (findField fs (bytes "repository"))
    let ch ← decChanges (findField fs (bytes "changes"))
    .ok ⟨ek, dt, ac, rp, ch⟩
  | _ => .error .errMalformedPayload

def repositoryModifiedZero : RepositoryModifiedEvent := ⟨[], [], none, none, none⟩

def decodeRepositoryModifiedEvent (j : Json) : Except WebhookErr RepositoryModifiedEvent :=
  match j with
  | .null => .ok repositoryModifiedZero
  | .obj fs => do
    let ek ← decStr (findField fs (bytes "eventKey"))
    let dt ← decStr (findField fs (bytes "date"))
    let ac ← decPtr (findField fs (bytes "actor"))
    let o ← decPtr (findField fs (bytes "old"))
    let n ← decPtr (findField fs (bytes "new"))
    .ok ⟨ek, dt, ac, o, n⟩
  | _ => .error .errMalformedPayload

def repositoryForkedZero : RepositoryForkedEvent := ⟨[], [], none, none⟩

def decodeRepositoryForkedEvent (j : Json) : Except WebhookErr RepositoryForkedEvent :=
  match j with
  | .null => .ok repositoryForkedZero
  | .obj fs => do
    let ek ← decStr (findField fs (bytes "eventKey"))
    let dt ← decStr (findField fs (bytes "date"))
    let ac ← decPtr (findField fs (bytes "actor"))
    let rp ← decPtr (findField fs (bytes "repository"))
    .ok ⟨ek, dt, ac, rp⟩
  | _ => .error .errMalformedPayload

def pullRequestEventZero : PullRequestEvent := ⟨[], [], none, none⟩

def decodePullRequestEvent (j : Json) : Except WebhookErr PullRequestEvent :=
  match j with
  | .null => .ok pullRequestEventZero
  | .obj fs => do
    let ek ← decStr (findField fs (bytes "eventKey"))
    let dt ← decTime (findField fs (bytes "date"))
    let ac ← decPtr (findField fs (bytes "actor"))
    let pr ← decPtr (findField fs (bytes "pullRequest"))
    .ok ⟨ek, dt, ac, pr⟩
  | _ => .error .errMalformedPayload

def pullRequestReviewerZero : PullRequestReviewerEvent := ⟨[], [], none, none, none, []⟩

def decodePullRequestReviewerEvent (j : Json) : Except WebhookErr PullRequestReviewerEvent :=
  match j with
  | .null => .ok pullRequestReviewerZero
  | .obj fs => do
    let ek ← decStr (findField fs (bytes "eventKey"))
    let dt ← decTime (findField fs (bytes "date"))
    let ac ← decPtr (findField fs (bytes "actor"))
    let pr ← decPtr (findField fs (bytes "pullRequest"))
    let pa ← decPtr (findField fs (bytes "participant"))
    let ps ← decStr (findField fs (bytes "previousStatus"))
    .ok ⟨ek, dt, ac, pr, pa, ps⟩
  | _ => .error .errMalformedPayload

def pullRequestModifiedZero : PullRequestModifiedEvent := ⟨[], [], none, none, [], [], none⟩

def decodePullRequestModifiedEvent (j : Json) : Except WebhookErr PullRequestModifiedEvent :=
  match j with
  | .null => .ok pullRequestModifiedZero
  | .obj fs => do
    let ek ← decStr (findField fs (bytes "eventKey"))
    let dt ← decTime (findField fs (bytes "date"))
    let ac ← decPtr (findField fs (bytes "actor"))
    let pr ← decPtr (findField fs (bytes "pullRequest"))
    let pt ← decStr (findField fs (bytes "previousTitle"))
    let pd ← decStr (findField fs (bytes "previousDescription"))
    let pg ← decPtr (findField fs (bytes "previousTarget"))
    .ok ⟨ek, dt, ac, pr, pt, pd, pg⟩
  | _ => .error .errMalformedPayload

def pullRequestBranchUpdatedZero : PullRequestBranchUpdatedEvent := ⟨[], [], none, none, []⟩

def decodePullRequestBranchUpdatedEvent (j : Json) :
    Except WebhookErr PullRequestBranchUpdatedEvent :=
  match j with
  | .null => .ok pullRequestBranchUpdatedZero
  | .obj fs => do
    let ek ← decStr (findField fs (bytes "eventKey"))
    let dt ← decTime (findField fs (bytes "date"))
    let ac ← decPtr (findField fs (bytes "actor"))
    let pr ← decPtr (findField fs (bytes "pullRequest"))
    let pf ← decStr (findField fs (bytes "previousFromHash"))
    .ok ⟨ek, dt, ac, pr, pf⟩
  | _ => .error .errMalformedPayload

/-! ### Event registry and ParseWebHook (webhooks source, event_types.go) -/

/-- A decoded webhook event: one constructor per distinct Go type to which
`ParseWebHook` dispatches. Note that the `pr:reviewer:updated` arm of the Go
switch allocates a `&PullRequestReviewerEvent{}` (the generic reviewer
shape), which is its own named type, distinct from the four types defined by
renaming `PullRequestEvent` / `PullRequestReviewerEvent`. -/
inductive Event where
  | push : PushEvent → Event
  | repositoryModified : RepositoryModifiedEvent → Event
  | repositoryForked : RepositoryForkedEvent → Event
  | pullRequestOpened : PullRequestEvent → Event
  | pullRequestReviewer : PullRequestReviewerEvent → Event
  | pullRequestModified : PullRequestModifiedEvent → Event
  | pullRequestBranchUpdated : PullRequestBranchUpdatedEvent → Event
  | pullRequestApproved : PullRequestReviewerEvent → Event
  | pullRequestUnapproved : PullRequestReviewerEvent → Event
  | pullRequestNeedsWork : PullRequestReviewerEvent → Event
  | pullRequestMerged : PullRequestEvent → Event
  | pullRequestDeclined : PullRequestEvent → Event
  | pullRequestDeleted : PullRequestEvent → Event

/-- The dynamic type of a decoded event (the Go type switch discriminator). -/
def eventTag : Event → Nat
  | .push _ => 0
  | .repositoryModified _ => 1
  | .repositoryForked _ => 2
  | .pullRequestOpened _ => 3
  | .pullRequestReviewer _ => 4
  | .pullRequestModified _ => 5
  | .pullRequestBranchUpdated _ => 6
  | .pullRequestApproved _ => 7
  | .pullRequestUnapproved _ => 8
  | .pullRequestNeedsWork _ => 9
  | .pullRequestMerged _ => 10
  | .pullRequestDeclined _ => 11
  | .pullRequestDeleted _ => 12

/-- The shape selected by the event-key switch before decoding. -/
inductive EventShape where
  | push : EventShape
  | repositoryModified : EventShape
  | repositoryForked : EventShape
  | pullRequestOpened : EventShape
  | pullRequestReviewersUpdated : EventShape
  | pullRequestModified : EventShape
  | pullRequestBranchUpdated : EventShape
  | pullRequestApproved : EventShape
  | pullRequestUnapproved : EventShape
  | pullRequestNeedsWork : EventShape
  | pullRequestMerged : EventShape
  | pullRequestDeclined : EventShape
  | pullRequestDeleted : EventShape
deriving DecidableEq

def eventKeyRepositoryPush : List Nat := bytes "repo:refs_changed"

def eventKeyRepositoryModified : List Nat := bytes "repo:modified"

def eventKeyRepositoryForked : List Nat := bytes "repo:forked"

def eventKeyPullRequestOpened : List Nat := bytes "pr:opened"

def eventKeyPullRequestReviewersUpdated : List Nat := bytes "pr:reviewer:updated"

def eventKeyPullRequestModified : List Nat := bytes "pr:modified"

def eventKeyPullRequestBranchUpdated : List Nat := bytes "pr:from_ref_updated"

def eventKeyPullRequestApproved : List Nat := bytes "pr:reviewer:approved"

def eventKeyPullRequestUnapproved : List Nat := bytes "pr:reviewer:unapproved"

def eventKeyPullRequestNeedsWork : List Nat := bytes "pr:reviewer:needs_work"

def eventKeyPullRequestMerged : List Nat := bytes "pr:merged"

def eventKeyPullRequestDeclined : List Nat := bytes "pr:declined"

def eventKeyPullRequestDeleted : List Nat := bytes "pr:deleted"

/-- The closed event-key switch of `ParseWebHook`, as a first-match table. -/
def eventShapeTable : List (List Nat × EventShape) := [
  (eventKeyRepositoryPush, .push),
  (eventKeyRepositoryModified, .repositoryModified),
  (eventKeyRepositoryForked, .repositoryForked),
  (eventKeyPullRequestOpened, .pullRequestOpened),
  (eventKeyPullRequestReviewersUpdated, .pullRequestReviewersUpdated),
  (eventKeyPullRequestModified, .pullRequestModified),
  (eventKeyPullRequestBranchUpdated, .pullRequestBranchUpdated),
  (eventKeyPullRequestApproved, .pullRequestApproved),
  (eventKeyPullRequestUnapproved, .pullRequestUnapproved),
  (eventKeyPullRequestNeedsWork, .pullRequestNeedsWork),
  (eventKeyPullRequestMerged, .pullRequestMerged),
  (eventKeyPullRequestDeclined, .pullRequestDeclined),
  (eventKeyPullRequestDeleted, .pullRequestDeleted)]

def shapeFor (eventKey : List Nat) : Option EventShape :=
  (eventShapeTable.find? (fun p => p.1 == eventKey)).map (fun p => p.2)

/-- `json.Unmarshal(payload, event)` for the selected shape: decode the
parsed payload into the shape's record and wrap it in the corresponding
`Event` constructor. -/
def decodeEventShape (shape : EventShape) (j : Json) : Except WebhookErr Event :=
  match shape with
  | .push => (decodePushEvent j).map .push
  | .repositoryModified => (decodeRepositoryModifiedEvent j).map .repositoryModified
  | .repositoryForked => (decodeRepositoryForkedEvent j).map .repositoryForked
  | .pullRequestOpened => (decodePullRequestEvent j).map .pullRequestOpened
  | .pullRequestReviewersUpdated => (decodePullRequestReviewerEvent j).map .pullRequestReviewer
  | .pullRequestModified => (decodePullRequestModifiedEvent j).map .pullRequestModified
  | .pullRequestBranchUpdated =>
    (decodePullRequestBranchUpdatedEvent j).map .pullRequestBranchUpdated
  | .pullRequestApproved => (decodePullRequestReviewerEvent j).map .pullRequestApproved
  | .pullRequestUnapproved => (decodePullRequestReviewerEvent j).map .pullRequestUnapproved
  | .pullRequestNeedsWork => (decodePullRequestReviewerEvent j).map .pullRequestNeedsWork
  | .pullRequestMerged => (decodePullRequestEvent j).map .pullRequestMerged
  | .pullRequestDeclined => (decodePullRequestEvent j).map .pullRequestDeclined
  | .pullRequestDeleted => (decodePullRequestEvent j).map .pullRequestDeleted

/-- ParseWebHook parses the event payload; an error is returned for
unrecognized event types (webhooks source, `ParseWebHook`). -/
def ParseWebHook (eventKey payload : List Nat) : Except WebhookErr Event :=
  match shapeFor eventKey with
  | none => .error (.errUnknownEventKey eventKey)
  | some shape =>
    match jsonParse payload with
    | none => .error .errMalformedPayload
    | some j => decodeEventShape shape j

/-! ### Supporting lemmas: bytes, digests, and bounds -/

theorem toBytesBE_length (w n : Nat) : (toBytesBE w n).length = w := by
  induction w generalizing n with
  | zero => rfl
  | succ k ih => simp [toBytesBE, ih]

theorem toBytesBE_lt (w n : Nat) : ∀ b ∈ toBytesBE w n, b < 256 := by
  induction w generalizing n with
  | zero => intro b hb; simp [toBytesBE] at hb
  | succ k ih =>
    intro b hb
    simp only [toBytesBE, List.mem_append, List.mem_singleton] at hb
    rcases hb with hb | hb
    · exact ih _ _ hb
    · omega

theorem sha1Hash_length (m : List Nat) : (sha1Hash m).length = 20 := by
  simp [sha1Hash, toBytesBE_length]

theorem sha256Hash_length (m : List Nat) : (sha256Hash m).length = 32 := by
  simp [sha256Hash, toBytesBE_length]

theorem sha512Hash_length (m : List Nat) : (sha512Hash m).length = 64 := by
  simp [sha512Hash, toBytesBE_length]

theorem sha1Hash_lt (m : List Nat) : ∀ b ∈ sha1Hash m, b < 256 := by
  intro b hb
  simp only [sha1Hash, List.mem_append] at hb
  rcases hb with ((((h | h) | h) | h) | h) <;> exact toBytesBE_lt _ _ _ h

theorem sha256Hash_lt (m : List Nat) : ∀ b ∈ sha256Hash m, b < 256 := by
  intro b hb
  simp only [sha256Hash, List.mem_append] at hb
  rcases hb with (((((((h | h) | h) | h) | h) | h) | h) | h) <;> exact toBytesBE_lt _ _ _ h

theorem sha512Hash_lt (m : List Nat) : ∀ b ∈ sha512Hash m, b < 256 := by
  intro b hb
  simp only [sha512Hash, List.mem_append] at hb
  rcases hb with (((((((h | h) | h) | h) | h) | h) | h) | h) <;> exact toBytesBE_lt _ _ _ h

theorem genMAC_length (m k : List Nat) (hf : HashFunc)
    (hlen : ∀ x, (hf.hash x).length = hf.size) : (genMAC m k hf).length = hf.size := by
  simp only [genMAC]
  exact hlen _

theorem genMAC_lt (m k : List Nat) (hf : HashFunc)
    (hb : ∀ x, ∀ b ∈ hf.hash x, b < 256) : ∀ b ∈ genMAC m k hf, b < 256 := by
  simp only [genMAC]
  exact hb _

theorem hashForTag_cases (p : List Nat) (hf : HashFunc) (h : hashForTag p = some hf) :
    hf = sha1New ∨ hf = sha256New ∨ hf = sha512New := by
  unfold hashForTag at h
  split_ifs at h <;> simp_all

theorem hashForTag_hash_length (p : List Nat) (hf : HashFunc) (h : hashForTag p = some hf) :
    ∀ x, (hf.hash x).length = hf.size := by
  rcases hashForTag_cases p hf h with rfl | rfl | rfl
  · exact fun x => sha1Hash_length x
  · exact fun x => sha256Hash_length x
  · exact fun x => sha512Hash_length x

theorem hashForTag_hash_lt (p : List Nat) (hf : HashFunc) (h : hashForTag p = some hf) :
    ∀ x, ∀ b ∈ hf.hash x, b < 256 := by
  rcases hashForTag_cases p hf h with rfl | rfl | rfl
  · exact fun x => sha1Hash_lt x
  · exact fun x => sha256Hash_lt x
  · exact fun x => sha512Hash_lt x

/-! ### Supporting lemmas: the constant-time comparison -/

theorem or_eq_zero_iff_both (x y : Nat) : x ||| y = 0 ↔ x = 0 ∧ y = 0 := by
  constructor
  · intro h
    constructor
    · apply Nat.eq_of_testBit_eq
      intro k
      have := congrArg (fun n => Nat.testBit n k) h
      simp [Nat.testBit_lor] at this
      simp [this.1]
    · apply Nat.eq_of_testBit_eq
      intro k
      have := congrArg (fun n => Nat.testBit n k) h
      simp [Nat.testBit_lor] at this
      simp [this.2]
  · rintro ⟨rfl, rfl⟩
    rfl

theorem foldl_or_from (pairs : List (Nat × Nat)) (v : Nat) :
    pairs.foldl (fun a p => a ||| (p.1 ^^^ p.2)) v =
      v ||| pairs.foldl (fun a p => a ||| (p.1 ^^^ p.2)) 0 := by
  induction pairs generalizing v with
  | nil => simp
  | cons p t ih =>
    simp only [List.foldl_cons]
    rw [ih (v ||| (p.1 ^^^ p.2)), ih (0 ||| (p.1 ^^^ p.2)), Nat.zero_or, Nat.or_assoc]

theorem ctAcc_cons (a b : Nat) (x y : List Nat) :
    ctAcc (a :: x) (b :: y) = (a ^^^ b) ||| ctAcc x y := by
  simp only [ctAcc, List.zip_cons_cons, List.foldl_cons]
  rw [foldl_or_from, Nat.zero_or]

theorem ctAcc_self (x : List Nat) : ctAcc x x = 0 := by
  induction x with
  | nil => rfl
  | cons a t ih => rw [ctAcc_cons, ih, Nat.xor_self, Nat.zero_or]

theorem ctAcc_lt (x y : List Nat) (hx : ∀ b ∈ x, b < 256) (hy : ∀ b ∈ y, b < 256) :
    ctAcc x y < 256 := by
  induction x generalizing y with
  | nil => simp [ctAcc]
  | cons a t ih =>
    cases y with
    | nil => simp [ctAcc]
    | cons b u =>
      rw [ctAcc_cons]
      have h1 : a ^^^ b < 256 := by
        have := Nat.xor_lt_two_pow (n := 8) (by simpa using hx a (by simp))
          (by simpa using hy b (by simp))
        simpa using this
      have h2 : ctAcc t u < 256 :=
        ih u (fun c hc => hx c (List.mem_cons_of_mem _ hc))
          (fun c hc => hy c (List.mem_cons_of_mem _ hc))
      have := Nat.or_lt_two_pow (n := 8) (by simpa using h1) (by simpa using h2)
      simpa using this

theorem ctAcc_eq_zero_iff (x y : List Nat) (hlen : x.length = y.length) :
    ctAcc x y = 0 ↔ x = y := by
  induction x generalizing y with
  | nil =>
    cases y with
    | nil => simp [ctAcc]
    | cons b u => simp at hlen
  | cons a t ih =>
    cases y with
    | nil => simp at hlen
    | cons b u =>
      rw [ctAcc_cons, or_eq_zero_iff_both, Nat.xor_eq_zero, ih u (by simpa using hlen)]
      simp

theorem ctByteEq_zero_iff : ∀ v < 256, (ctByteEq v 0 = 1 ↔ v = 0) := by decide

theorem hmacEqual_self (x : List Nat) : hmacEqual x x = true := by
  unfold hmacEqual constantTimeCompare
  rw [if_pos rfl, ctAcc_self]
  rfl

theorem hmacEqual_iff (x y : List Nat) (hx : ∀ b ∈ x, b < 256) (hy : ∀ b ∈ y, b < 256) :
    hmacEqual x y = true ↔ x = y := by
  by_cases hlen : x.length = y.length
  · unfold hmacEqual constantTimeCompare
    rw [if_pos hlen, beq_iff_eq]
    have hb := ctByteEq_zero_iff (ctAcc x y) (ctAcc_lt x y hx hy)
    constructor
    · intro h
      exact (ctAcc_eq_zero_iff x y hlen).mp (hb.mp h)
    · intro h
      subst h
      rw [ctAcc_self]
      rfl
  · unfold hmacEqual constantTimeCompare
    rw [if_neg hlen]
    constructor
    · intro h
      simp at h
    · intro h
      exact absurd (congrArg List.length h) hlen

theorem ctLoop_fst (x y : List Nat) (v : Nat) :
    (ctLoop x y v).1 = (x.zip y).foldl (fun a p => a ||| (p.1 ^^^ p.2)) v := by
  induction x generalizing y v with
  | nil => simp [ctLoop]
  | cons a t ih =>
    cases y with
    | nil => simp [ctLoop]
    | cons b u => simp [ctLoop, ih]

theorem ctLoop_snd (x y : List Nat) (v : Nat) :
    (ctLoop x y v).2 = min x.length y.length := by
  induction x generalizing y v with
  | nil => simp [ctLoop]
  | cons a t ih =>
    cases y with
    | nil => simp [ctLoop]
    | cons b u =>
      simp only [ctLoop, ih, List.length_cons]
      omega

theorem constantTimeCompare_eq_run (x y : List Nat) :
    constantTimeCompare x y = (ctCompareRun x y).1 := by
  unfold constantTimeCompare ctCompareRun
  split_ifs with h
  · show ctByteEq (ctAcc x y) 0 = ctByteEq (ctLoop x y 0).1 0
    rw [ctLoop_fst]
    rfl
  · rfl

theorem ctCompareRun_steps (x y : List Nat) (h : x.length = y.length) :
    (ctCompareRun x y).2 = x.length := by
  simp [ctCompareRun, if_pos h, ctLoop_snd, h]

/-! ### Supporting lemmas: hex encoding -/

theorem hexDigit_roundtrip :
    ∀ b < 256, hexDigitVal (hexDigitChar (b / 16)) = some (b / 16) ∧
      hexDigitVal (hexDigitChar (b % 16)) = some (b % 16) := by decide

theorem hexDecode_hexEncode (l : List Nat) (h : ∀ b ∈ l, b < 256) :
    hexDecode (hexEncode l) = some l := by
  induction l with
  | nil => rfl
  | cons b t ih =>
    have hb : b < 256 := h b (by simp)
    have hr := hexDigit_roundtrip b hb
    have hrest := ih (fun x hx => h x (by simp [hx]))
    simp only [hexEncode, List.foldr_cons] at hrest ⊢
    simp only [hexDecode, hr.1, hr.2, hrest]
    have : 16 * (b / 16) + b % 16 = b := by omega
    rw [this]

theorem hexDigitVal_lt (c v : Nat) (h : hexDigitVal c = some v) : v < 16 := by
  unfold hexDigitVal at h
  split_ifs at h <;> simp_all <;> omega

theorem hexDecode_mem_lt : ∀ s l, hexDecode s = some l → ∀ b ∈ l, b < 256
  | [], l, h => by
    simp only [hexDecode, Option.some.injEq] at h
    subst h
    simp
  | [_], l, h => by simp [hexDecode] at h
  | c1 :: c2 :: rest, l, h => by
    simp only [hexDecode] at h
    rcases h1 : hexDigitVal c1 with _ | a <;> rw [h1] at h
    · simp at h
    rcases h2 : hexDigitVal c2 with _ | b2 <;> rw [h2] at h
    · simp at h
    rcases h3 : hexDecode rest with _ | tail <;> rw [h3] at h
    · simp at h
    simp only [Option.some.injEq] at h
    subst h
    intro b hb
    rcases List.mem_cons.mp hb with rfl | hb
    · have := hexDigitVal_lt _ _ h1
      have := hexDigitVal_lt _ _ h2
      omega
    · exact hexDecode_mem_lt rest tail h3 b hb

/-! ### Supporting lemmas: cutting at the separator -/

theorem cutEq_append (a b : List Nat) (ha : 61 ∉ a) : cutEq (a ++ 61 :: b) = some (a, b) := by
  induction a with
  | nil => simp [cutEq]
  | cons c t ih =>
    simp only [List.mem_cons, not_or] at ha
    rw [List.cons_append]
    show cutEq (c :: (t ++ 61 :: b)) = some (c :: t, b)
    rw [cutEq, if_neg (fun hh => ha.1 hh.symm), ih ha.2]

theorem cutEq_none_iff (s : List Nat) : cutEq s = none ↔ 61 ∉ s := by
  induction s with
  | nil => simp [cutEq]
  | cons c t ih =>
    rw [cutEq]
    by_cases hc : c = 61
    · subst hc
      simp
    · rw [if_neg hc]
      rcases h : cutEq t with _ | pr
      · have h61 : 61 ∉ t := ih.mp h
        simp only [List.mem_cons, not_or]
        constructor
        · intro _
          exact ⟨fun hh => hc hh.symm, h61⟩
        · intro _
          trivial
      · have hmem : 61 ∈ t := by
          by_contra hmem
          rw [ih.mpr hmem] at h
          exact absurd h (by simp)
        simp only [List.mem_cons, not_or]
        constructor
        · intro hcontr
          simp at hcontr
        · intro hcontr
          exact absurd hmem hcontr.2

theorem cutEq_some : ∀ s p r, cutEq s = some (p, r) → s = p ++ 61 :: r ∧ 61 ∉ p
  | [], p, r, h => by simp [cutEq] at h
  | c :: t, p, r, h => by
    simp only [cutEq] at h
    by_cases hc : c = 61
    · rw [if_pos hc] at h
      simp only [Option.some.injEq, Prod.mk.injEq] at h
      rcases h with ⟨rfl, rfl⟩
      subst hc
      simp
    · rw [if_neg hc] at h
      rcases h2 : cutEq t with _ | ⟨a, b⟩ <;> rw [h2] at h
      · simp at h
      · simp only [Option.some.injEq, Prod.mk.injEq] at h
        rcases h with ⟨rfl, rfl⟩
        have := cutEq_some t a b h2
        refine ⟨by simp [this.1], ?_⟩
        simp only [List.mem_cons, not_or]
        exact ⟨fun hh => hc hh.symm, this.2⟩

/-! ### Supporting lemmas: messageMAC and ValidateSignature decomposition -/

theorem messageMAC_nil : messageMAC [] = .error .errMissingSignature := rfl

theorem messageMAC_noCut (sig : List Nat) (hne : sig ≠ []) (hcut : cutEq sig = none) :
    messageMAC sig = .error (.errParsingSignature sig) := by
  unfold messageMAC
  rw [if_neg hne, hcut]

theorem messageMAC_unknown (sig p rest : List Nat) (hne : sig ≠ [])
    (hcut : cutEq sig = some (p, rest)) (hp : hashForTag p = none) :
    messageMAC sig = .error (.errUnknownHashType p) := by
  simp only [messageMAC, if_neg hne, hcut, hp]

theorem messageMAC_badHex (sig p rest : List Nat) (hf : HashFunc) (hne : sig ≠ [])
    (hcut : cutEq sig = some (p, rest)) (hp : hashForTag p = some hf)
    (hhex : hexDecode rest = none) :
    messageMAC sig = .error (.errDecodingSignature sig) := by
  simp only [messageMAC, if_neg hne, hcut, hp, hhex]

theorem messageMAC_parsed (sig p rest : List Nat) (hf : HashFunc) (buf : List Nat)
    (hne : sig ≠ []) (hcut : cutEq sig = some (p, rest)) (hp : hashForTag p = some hf)
    (hhex : hexDecode rest = some buf) : messageMAC sig = .ok (buf, hf) := by
  simp only [messageMAC, if_neg hne, hcut, hp, hhex]

theorem messageMAC_ok_inv (sig : List Nat) (buf : List Nat) (hf : HashFunc)
    (h : messageMAC sig = .ok (buf, hf)) :
    ∃ p rest, cutEq sig = some (p, rest) ∧ hashForTag p = some hf ∧
      hexDecode rest = some buf := by
  unfold messageMAC at h
  by_cases hne : sig = []
  · rw [if_pos hne] at h
    exact absurd h (by simp)
  · rw [if_neg hne] at h
    rcases hcut : cutEq sig with _ | ⟨p, rest⟩ <;> simp only [hcut] at h
    · exact absurd h (by simp)
    · rcases hp : hashForTag p with _ | hf2 <;> simp only [hp] at h
      · exact absurd h (by simp)
      · rcases hhex : hexDecode rest with _ | buf2 <;> simp only [hhex] at h
        · exact absurd h (by simp)
        · simp only [Except.ok.injEq, Prod.mk.injEq] at h
          rcases h with ⟨rfl, rfl⟩
          exact ⟨p, rest, rfl, hp, hhex⟩

theorem validateSignature_parsed (sig payload secret p rest : List Nat) (hf : HashFunc)
    (mac : List Nat) (hne : sig ≠ []) (hcut : cutEq sig = some (p, rest))
    (hp : hashForTag p = some hf) (hhex : hexDecode rest = some mac) :
    ValidateSignature sig payload secret =
      if hmacEqual mac (genMAC payload secret hf) then .ok () else .error .errSignatureCheckFailed := by
  unfold ValidateSignature
  rw [messageMAC_parsed sig p rest hf mac hne hcut hp hhex]
  rfl

theorem cutEq_some_ne_nil (sig p rest : List Nat) (hcut : cutEq sig = some (p, rest)) :
    sig ≠ [] := by
  intro hnil
  subst hnil
  simp [cutEq] at hcut

theorem cutEq_some_mem (sig p rest : List Nat) (hcut : cutEq sig = some (p, rest)) :
    61 ∈ sig := by
  rw [(cutEq_some sig p rest hcut).1]
  simp

/-! ### The claims about signature verification -/

/-- Claim C4, counterexample. The claim says `MalformedSignature` occurs
exactly when the header lacks `=` or its hex portion is invalid, and
`UnknownAlgorithm` exactly when the prefix is unrecognized. On the header
`md5=zz` the hex portion is invalid, yet the code reports the unknown-prefix
error (the switch runs before hex decoding), which does not classify as
`MalformedSignature` — so the two "exactly when" conditions overlap and the
claim, as stated, fails here. -/
theorem validateSignature_taxonomy_counterexample :
    ValidateSignature (bytes "md5=zz") (bytes "x") (bytes "k") =
      .error (.errUnknownHashType (bytes "md5"))
    ∧ hexDecode (bytes "zz") = none
    ∧ classify (.errUnknownHashType (bytes "md5")) ≠ ErrClass.malformedSignature := by
  refine ⟨by decide, by decide, by decide⟩

/-- Claim C4 (amended): `ValidateSignature` fails with a
`MissingSignature`-class error exactly when the header is empty; with an
`UnknownAlgorithm`-class error exactly when the header splits at `=` and the
prefix is not a recognized tag (regardless of the hex portion); with a
`MalformedSignature`-class error exactly when the header is nonempty without
`=`, or the prefix is recognized and the hex portion invalid; with a
`SignatureMismatch`-class error exactly when the header parses and the
decoded digest differs from the computed HMAC; and succeeds (returning unit,
with no side effect) exactly when the header parses and the digest equals
the computed HMAC. -/
theorem validateSignature_error_taxonomy (sig payload secret : List Nat) :
    ((∃ e, ValidateSignature sig payload secret = .error e ∧
        classify e = ErrClass.missingSignature) ↔ sig = [])
    ∧ ((∃ e, ValidateSignature sig payload secret = .error e ∧
        classify e = ErrClass.malformedSignature) ↔
      ((sig ≠ [] ∧ 61 ∉ sig) ∨
        ∃ p rest hf, cutEq sig = some (p, rest) ∧ hashForTag p = some hf ∧
          hexDecode rest = none))
    ∧ ((∃ e, ValidateSignature sig payload secret = .error e ∧
        classify e = ErrClass.unknownAlgorithm) ↔
      (∃ p rest, cutEq sig = some (p, rest) ∧ hashForTag p = none))
    ∧ ((∃ e, ValidateSignature sig payload secret = .error e ∧
        classify e = ErrClass.signatureMismatch) ↔
      (∃ p rest hf mac, cutEq sig = some (p, rest) ∧ hashForTag p = some hf ∧
        hexDecode rest = some mac ∧ mac ≠ genMAC payload secret hf))
    ∧ (ValidateSignature sig payload secret = .ok () ↔
      (∃ p rest hf, cutEq sig = some (p, rest) ∧ hashForTag p = some hf ∧
        hexDecode rest = some (genMAC payload secret hf))) := by
  by_cases hnil : sig = []
  · subst hnil
    have hres : ValidateSignature [] payload secret = .error .errMissingSignature := rfl
    refine ⟨?_, ?_, ?_, ?_, ?_⟩ <;> simp [hres, classify, cutEq]
  · rcases hcut : cutEq sig with _ | ⟨p, rest⟩
    · have hres : ValidateSignature sig payload secret = .error (.errParsingSignature sig) := by
        unfold ValidateSignature
        rw [messageMAC_noCut sig hnil hcut]
      have hmem : 61 ∉ sig := (cutEq_none_iff sig).mp hcut
      refine ⟨?_, ?_, ?_, ?_, ?_⟩ <;> simp [hres, classify, hnil, hmem]
    · have hmem61 : 61 ∈ sig := cutEq_some_mem sig p rest hcut
      rcases hhf : hashForTag p with _ | hf
      · have hres : ValidateSignature sig payload secret = .error (.errUnknownHashType p) := by
          unfold ValidateSignature
          rw [messageMAC_unknown sig p rest hnil hcut hhf]
        refine ⟨?_, ?_, ?_, ?_, ?_⟩
        · simp [hres, classify, hnil]
        · simp [hres, classify, hmem61, hhf]
        · exact iff_of_true ⟨.errUnknownHashType p, hres, rfl⟩ ⟨p, rest, rfl, hhf⟩
        · simp [hres, classify, hhf]
        · simp [hres, hhf]
      · rcases hhex : hexDecode rest with _ | mac
        · have hres : ValidateSignature sig payload secret =
              .error (.errDecodingSignature sig) := by
            unfold ValidateSignature
            rw [messageMAC_badHex sig p rest hf hnil hcut hhf hhex]
          refine ⟨?_, ?_, ?_, ?_, ?_⟩
          · simp [hres, classify, hnil]
          · exact iff_of_true ⟨.errDecodingSignature sig, hres, rfl⟩
              (Or.inr ⟨p, rest, hf, rfl, hhf, hhex⟩)
          · simp [hres, classify, hhf]
          · simp [hres, classify, hhex]
          · simp [hres, hhex]
        · have hres := validateSignature_parsed sig payload secret p rest hf mac hnil hcut hhf hhex
          have hmlt := hexDecode_mem_lt rest mac hhex
          have hglt := genMAC_lt payload secret hf (fun x => hashForTag_hash_lt p hf hhf x)
          by_cases heq : mac = genMAC payload secret hf
          · have hres2 : ValidateSignature sig payload secret = .ok () := by
              rw [hres, heq, hmacEqual_self]
              simp
            refine ⟨?_, ?_, ?_, ?_, ?_⟩
            · simp [hres2, hnil]
            · simp [hres2, classify, hmem61, hhex]
            · simp [hres2, hhf]
            · simp [hres2, hhf, hhex, heq]
            · exact iff_of_true hres2 ⟨p, rest, hf, rfl, hhf, by rw [hhex, heq]⟩
          · have hne : ¬ (hmacEqual mac (genMAC payload secret hf) = true) :=
              fun hb => heq ((hmacEqual_iff _ _ hmlt hglt).mp hb)
            have hfalse : hmacEqual mac (genMAC payload secret hf) = false :=
              Bool.eq_false_iff.mpr hne
            have hres2 : ValidateSignature sig payload secret =
                .error .errSignatureCheckFailed := by
              rw [hres, hfalse]
              rfl
            refine ⟨?_, ?_, ?_, ?_, ?_⟩
            · simp [hres2, classify, hnil]
            · simp [hres2, classify, hmem61, hhex]
            · simp [hres2, classify, hhf]
            · exact iff_of_true ⟨.errSignatureCheckFailed, hres2, rfl⟩
                ⟨p, rest, hf, mac, rfl, hhf, hhex, heq⟩
            · simp [hres2, hhf, hhex, heq]

theorem hashForTag_sha1 : hashForTag sha1Tag = some sha1New := by
  unfold hashForTag
  rw [if_pos rfl]

theorem hashForTag_sha256 : hashForTag sha256Tag = some sha256New := by
  unfold hashForTag
  rw [if_neg (by decide), if_pos rfl]

theorem hashForTag_sha512 : hashForTag sha512Tag = some sha512New := by
  unfold hashForTag
  rw [if_neg (by decide), if_neg (by decide), if_pos rfl]

theorem roundtrip_aux (tag : List Nat) (hf : HashFunc) (payload secret : List Nat)
    (htag : hashForTag tag = some hf) (h61 : 61 ∉ tag)
    (hlt : ∀ x, ∀ b ∈ hf.hash x, b < 256) :
    ValidateSignature (tag ++ 61 :: hexEncode (genMAC payload secret hf)) payload secret =
      .ok () := by
  have hcut : cutEq (tag ++ 61 :: hexEncode (genMAC payload secret hf)) =
      some (tag, hexEncode (genMAC payload secret hf)) := cutEq_append _ _ h61
  have hne := cutEq_some_ne_nil _ _ _ hcut
  have hhex : hexDecode (hexEncode (genMAC payload secret hf)) =
      some (genMAC payload secret hf) :=
    hexDecode_hexEncode _ (genMAC_lt _ _ _ hlt)
  rw [validateSignature_parsed _ payload secret tag _ hf _ hne hcut htag hhex, hmacEqual_self]
  simp

/-- Claim C2: for every secret and payload and each of the three algorithms,
verifying the header `<algo>=` followed by the lowercase hex encoding of
`HMAC_<algo>(payload, secret)` against that same payload and secret
succeeds. -/
theorem validateSignature_fresh_mac_ok (secret payload : List Nat) :
    ValidateSignature (bytes "sha1=" ++ hexEncode (genMAC payload secret sha1New))
      payload secret = .ok ()
    ∧ ValidateSignature (bytes "sha256=" ++ hexEncode (genMAC payload secret sha256New))
      payload secret = .ok ()
    ∧ ValidateSignature (bytes "sha512=" ++ hexEncode (genMAC payload secret sha512New))
      payload secret = .ok () := by
  have e1 : bytes "sha1=" = sha1Tag ++ [61] := by decide
  have e2 : bytes "sha256=" = sha256Tag ++ [61] := by decide
  have e3 : bytes "sha512=" = sha512Tag ++ [61] := by decide
  refine ⟨?_, ?_, ?_⟩
  · rw [e1, List.append_assoc, List.singleton_append]
    exact roundtrip_aux sha1Tag sha1New payload secret hashForTag_sha1 (by decide)
      (fun x => sha1Hash_lt x)
  · rw [e2, List.append_assoc, List.singleton_append]
    exact roundtrip_aux sha256Tag sha256New payload secret hashForTag_sha256 (by decide)
      (fun x => sha256Hash_lt x)
  · rw [e3, List.append_assoc, List.singleton_append]
    exact roundtrip_aux sha512Tag sha512New payload secret hashForTag_sha512 (by decide)
      (fun x => sha512Hash_lt x)

/-- Claim C7, counterexample. The claim says parsing only accepts digests of
exactly the length the algorithm implies (20 bytes for sha1). But
`messageMAC` performs no length check: the header `sha1=abcd`, whose digest
decodes to only 2 bytes, is accepted by parsing. -/
theorem messageMAC_length_counterexample :
    ((messageMAC (bytes "sha1=abcd")).toOption.map (fun x => x.1)) = some [171, 205]
    ∧ ([171, 205] : List Nat).length = 2
    ∧ (2 : Nat) ≠ 20 := by
  refine ⟨by decide, by decide, by decide⟩

/-- Claim C7 (amended): every signature header accepted by the parsing step
has a recognized algorithm tag (sha1, sha256 or sha512) and a valid-hex
digest, but the digest may decode to any byte length; a header whose digest
length differs from the algorithm's digest size (20, 32 or 64 bytes) is not
caught by parsing and instead always fails the subsequent comparison with
`SignatureMismatch`, since the computed HMAC has exactly that size. -/
theorem messageMAC_accepts_invariant (sig payload secret mac : List Nat) (hf : HashFunc)
    (h : messageMAC sig = .ok (mac, hf)) :
    (∃ p rest, cutEq sig = some (p, rest) ∧ hashForTag p = some hf ∧
      hexDecode rest = some mac)
    ∧ (hf = sha1New ∨ hf = sha256New ∨ hf = sha512New)
    ∧ (mac.length ≠ hf.size →
        ValidateSignature sig payload secret = .error .errSignatureCheckFailed) := by
  obtain ⟨p, rest, hcut, hhf, hhex⟩ := messageMAC_ok_inv sig mac hf h
  refine ⟨⟨p, rest, hcut, hhf, hhex⟩, hashForTag_cases p hf hhf, ?_⟩
  intro hlen
  have hne := cutEq_some_ne_nil _ _ _ hcut
  rw [validateSignature_parsed sig payload secret p rest hf mac hne hcut hhf hhex]
  have hg : (genMAC payload secret hf).length = hf.size :=
    genMAC_length _ _ _ (hashForTag_hash_length p hf hhf)
  have hfalse : hmacEqual mac (genMAC payload secret hf) = false := by
    unfold hmacEqual constantTimeCompare
    rw [if_neg (by rw [hg]; exact hlen)]
    rfl
  rw [hfalse]
  simp

/-- Concrete instance for the amended C7: the header `sha1=abcd` parses to a
2-byte digest with the sha1 hash function, and since 2 differs from sha1's
digest size the verifier can only report a signature mismatch on it. -/
theorem messageMAC_accepts_invariant_witness :
    messageMAC (bytes "sha1=abcd") = .ok ([171, 205], sha1New)
    ∧ ((∃ p rest, cutEq (bytes "sha1=abcd") = some (p, rest) ∧
          hashForTag p = some sha1New ∧ hexDecode rest = some [171, 205])
        ∧ (sha1New = sha1New ∨ sha1New = sha256New ∨ sha1New = sha512New)
        ∧ (([171, 205] : List Nat).length ≠ sha1New.size →
            ValidateSignature (bytes "sha1=abcd") (bytes "x") (bytes "k") =
              .error .errSignatureCheckFailed)) :=
  ⟨by rfl,
    messageMAC_accepts_invariant (bytes "sha1=abcd") (bytes "x") (bytes "k")
      [171, 205] sha1New (by rfl)⟩

/-! ### The claims about the comparison's timing and the facade -/

/-- Claim C9: the digest comparison used by `checkMAC` is crypto/subtle's
ConstantTimeCompare (via hmac.Equal). Modelling running time as the number
of comparison-loop iterations executed (`ctCompareRun`), the count depends
only on the operand lengths, never on the position of a differing byte: for
equal-length operands it is always exactly the digest length — there is no
fast exit. -/
theorem checkMAC_constant_time :
    (∀ message mac key hashFunc,
      checkMAC message mac key hashFunc =
        ((ctCompareRun mac (genMAC message key hashFunc)).1 == 1))
    ∧ (∀ x y x2 y2 : List Nat, x.length = y.length → x2.length = y2.length →
        x.length = x2.length → (ctCompareRun x y).2 = (ctCompareRun x2 y2).2)
    ∧ (∀ x y : List Nat, x.length = y.length → (ctCompareRun x y).2 = x.length) := by
  refine ⟨?_, ?_, ?_⟩
  · intro m mac k hf
    unfold checkMAC hmacEqual
    rw [constantTimeCompare_eq_run]
  · intro x y x2 y2 h1 h2 h3
    rw [ctCompareRun_steps x y h1, ctCompareRun_steps x2 y2 h2, h3]
  · exact ctCompareRun_steps

/-- Concrete instance of the constant-time property: comparing two operands
that differ in the first byte runs the same number of loop iterations as
comparing two equal operands of the same length. -/
theorem checkMAC_constant_time_witness :
    (([1, 2] : List Nat).length = ([3, 4] : List Nat).length
      ∧ ([7, 7] : List Nat).length = ([7, 7] : List Nat).length
      ∧ ([1, 2] : List Nat).length = ([7, 7] : List Nat).length)
    ∧ (ctCompareRun [1, 2] [3, 4]).2 = (ctCompareRun [7, 7] [7, 7]).2 :=
  ⟨⟨rfl, rfl, rfl⟩, checkMAC_constant_time.2.1 [1, 2] [3, 4] [7, 7] [7, 7] rfl rfl rfl⟩

/-- Claim C10: whenever `ValidatePayload` returns a non-nil error, the
payload component of its Go result pair is nil. -/
theorem validatePayload_error_nil_payload (r : Request) (secret : List Nat) (e : WebhookErr)
    (h : (ValidatePayload r secret).2 = some e) : (ValidatePayload r secret).1 = none := by
  unfold ValidatePayload at h ⊢
  rcases hx : extractStep r with err | ⟨body, payload⟩
  · simp [hx]
  · simp only [hx] at h ⊢
    by_cases hs : secret.length > 0
    · rw [if_pos hs] at h ⊢
      rcases hv : ValidateSignature r.signature body secret with e2 | u
      · simp [hv]
      · simp only [hv] at h
        exact absurd h (by simp)
    · rw [if_neg hs] at h
      exact absurd h (by simp)

/-- Concrete instance for C10: an unsupported content type yields an error
and a nil payload. -/
theorem validatePayload_error_nil_payload_witness :
    (ValidatePayload ⟨bytes "text/plain", some [], [], [], []⟩ []).2 =
      some (WebhookErr.errUnsupportedContentType (bytes "text/plain"))
    ∧ (ValidatePayload ⟨bytes "text/plain", some [], [], [], []⟩ []).1 = none :=
  ⟨by decide,
    validatePayload_error_nil_payload ⟨bytes "text/plain", some [], [], [], []⟩ []
      (WebhookErr.errUnsupportedContentType (bytes "text/plain")) (by decide)⟩

/-- Claim C6: with an empty secret, `ValidatePayload` skips signature
verification entirely: on successful extraction it returns the extracted
payload with no error, and its whole result is independent of the signature
header (no HMAC is computed on any header value, present, malformed or
mismatched). -/
theorem validatePayload_empty_secret (ct : List Nat) (body : Option (List Nat))
    (sig ek rid : List Nat) :
    (∀ bodyRaw payload, extractStep ⟨ct, body, sig, ek, rid⟩ = .ok (bodyRaw, payload) →
      ValidatePayload ⟨ct, body, sig, ek, rid⟩ [] = (some payload, none))
    ∧ (∀ sig2, ValidatePayload ⟨ct, body, sig, ek, rid⟩ [] =
        ValidatePayload ⟨ct, body, sig2, ek, rid⟩ []) := by
  constructor
  · intro bodyRaw payload h
    unfold ValidatePayload
    rw [h]
    rfl
  · intro sig2
    unfold ValidatePayload
    have hsame : extractStep ⟨ct, body, sig2, ek, rid⟩ = extractStep ⟨ct, body, sig, ek, rid⟩ :=
      rfl
    rw [hsame]
    rcases hx : extractStep ⟨ct, body, sig, ek, rid⟩ with err | ⟨bodyRaw, payload⟩ <;>
      simp only [hx] <;> rfl

/-- Concrete instance for C6: a garbage signature header is ignored when the
secret is empty. -/
theorem validatePayload_empty_secret_witness :
    extractStep ⟨jsonContentType, some (bytes "x"), bytes "garbage", [], []⟩ =
      .ok (bytes "x", bytes "x")
    ∧ ValidatePayload ⟨jsonContentType, some (bytes "x"), bytes "garbage", [], []⟩ [] =
      (some (bytes "x"), none) :=
  ⟨by decide,
    (validatePayload_empty_secret jsonContentType (some (bytes "x"))
      (bytes "garbage") [] []).1 (bytes "x") (bytes "x") (by decide)⟩

/-- Claim C1, counterexample. The claim says validation succeeds exactly when
the signature header is a valid HMAC of the payload bytes that validate
returns. Under the form content type the code instead signs the RAW BODY:
here the header is a correct HMAC-SHA1 of the extracted payload `A` (the
bytes the claim refers to), yet validation fails with a signature mismatch,
because the code verifies over the body `payload=A`. -/
theorem validatePayload_counterexample :
    checkMAC (bytes "A") (genMAC (bytes "A") (bytes "k") sha1New) (bytes "k") sha1New = true
    ∧ ValidatePayload
        ⟨formContentType, some (bytes "payload=A"),
          bytes "sha1=" ++ hexEncode (genMAC (bytes "A") (bytes "k") sha1New), [], []⟩
        (bytes "k") = (none, some .errSignatureCheckFailed) := by
  refine ⟨by decide, by decide⟩

/-- Claim C1 (amended): for a non-empty secret, the facade passes the
signature header, the RAW BODY bytes, and the secret to the verifier: after
successful extraction, validation succeeds returning the payload iff
`ValidateSignature` accepts the header for the raw body, and a verification
error propagates with a nil payload. Under application/json the raw body
and the returned payload coincide, so there success is equivalent to the
header being a valid HMAC of the returned payload. -/
theorem validatePayload_verifies_body (ct : List Nat) (body : Option (List Nat))
    (sig ek rid secret : List Nat) (hsec : secret ≠ []) (bodyRaw payload : List Nat)
    (hx : extractStep ⟨ct, body, sig, ek, rid⟩ = .ok (bodyRaw, payload)) :
    (ValidatePayload ⟨ct, body, sig, ek, rid⟩ secret = (some payload, none) ↔
      ValidateSignature sig bodyRaw secret = .ok ())
    ∧ (∀ e, ValidateSignature sig bodyRaw secret = .error e →
        ValidatePayload ⟨ct, body, sig, ek, rid⟩ secret = (none, some e))
    ∧ (ct = jsonContentType → bodyRaw = payload) := by
  have hlen : secret.length > 0 := List.length_pos.mpr hsec
  refine ⟨?_, ?_, ?_⟩
  · unfold ValidatePayload
    simp only [hx]
    rw [if_pos hlen]
    rcases hv : ValidateSignature sig bodyRaw secret with e | u <;> simp [hv]
  · intro e hv
    unfold ValidatePayload
    simp only [hx]
    rw [if_pos hlen, hv]
  · intro hct
    subst hct
    unfold extractStep at hx
    rw [if_pos rfl] at hx
    rcases body with _ | b
    · exact absurd hx (by simp)
    · simp only [Except.ok.injEq, Prod.mk.injEq] at hx
      rw [← hx.1, ← hx.2]

/-- Concrete instance for the amended C1: under application/json with secret
`k`, a fresh HMAC-SHA256 header over the body validates and the body is the
returned payload. -/
theorem validatePayload_verifies_body_witness :
    extractStep ⟨jsonContentType, some (bytes "hello"),
        bytes "sha256=" ++ hexEncode (genMAC (bytes "hello") (bytes "k") sha256New), [], []⟩ =
      .ok (bytes "hello", bytes "hello")
    ∧ ((ValidatePayload ⟨jsonContentType, some (bytes "hello"),
          bytes "sha256=" ++ hexEncode (genMAC (bytes "hello") (bytes "k") sha256New), [], []⟩
          (bytes "k") = (some (bytes "hello"), none)) ↔
        (ValidateSignature
          (bytes "sha256=" ++ hexEncode (genMAC (bytes "hello") (bytes "k") sha256New))
          (bytes "hello") (bytes "k") = .ok ())) :=
  ⟨by decide,
    (validatePayload_verifies_body jsonContentType (some (bytes "hello"))
      (bytes "sha256=" ++ hexEncode (genMAC (bytes "hello") (bytes "k") sha256New)) [] []
      (bytes "k") (by decide) (bytes "hello") (bytes "hello") (by decide)).1⟩

/-! ### Supporting lemmas: query escaping -/

theorem upperHexChar_avoid (n : Nat) :
    upperHexChar n ≠ 38 ∧ upperHexChar n ≠ 59 ∧ upperHexChar n ≠ 61 := by
  unfold upperHexChar
  split_ifs <;> omega

theorem isUnreserved_avoid (b : Nat) (h : isUnreservedQueryByte b = true) :
    b ≠ 38 ∧ b ≠ 59 ∧ b ≠ 61 ∧ b ≠ 37 ∧ b ≠ 43 := by
  simp only [isUnreservedQueryByte, Bool.or_eq_true, beq_iff_eq, decide_eq_true_eq,
    Bool.and_eq_true] at h
  omega

theorem escapeByte_avoid (b c : Nat) (hc : c ∈ escapeByte b) :
    c ≠ 38 ∧ c ≠ 59 ∧ c ≠ 61 := by
  unfold escapeByte at hc
  split_ifs at hc with h32 hunr
  · simp only [List.mem_singleton] at hc
    omega
  · simp only [List.mem_singleton] at hc
    subst hc
    have := isUnreserved_avoid c hunr
    exact ⟨this.1, this.2.1, this.2.2.1⟩
  · simp only [List.mem_cons, List.not_mem_nil, or_false] at hc
    rcases hc with rfl | rfl | rfl
    · omega
    · exact upperHexChar_avoid _
    · exact upperHexChar_avoid _

theorem queryEscape_cons (b : Nat) (t : List Nat) :
    queryEscape (b :: t) = escapeByte b ++ queryEscape t := rfl

theorem queryEscape_mem (s : List Nat) (c : Nat) (hc : c ∈ queryEscape s) :
    ∃ b ∈ s, c ∈ escapeByte b := by
  induction s with
  | nil => simp [queryEscape] at hc
  | cons b t ih =>
    rw [queryEscape_cons] at hc
    rcases List.mem_append.mp hc with h | h
    · exact ⟨b, by simp, h⟩
    · obtain ⟨b2, hb2, hcb⟩ := ih h
      exact ⟨b2, by simp [hb2], hcb⟩

theorem upperHex_roundtrip : ∀ x < 16, hexDigitVal (upperHexChar x) = some x := by decide

theorem queryUnescape_cons_ne (c : Nat) (t : List Nat) (h37 : c ≠ 37) :
    queryUnescape (c :: t) =
      if c = 43 then (queryUnescape t).map (fun l => 32 :: l)
      else (queryUnescape t).map (fun l => c :: l) := by
  match t with
  | [] => rw [queryUnescape.eq_3 c [] (by intro c1 c2 t2 hh; cases hh), if_neg h37]
  | [x] => rw [queryUnescape.eq_3 c [x] (by intro c1 c2 t2 hh; simp at hh), if_neg h37]
  | c1 :: c2 :: t2 => rw [queryUnescape.eq_2, if_neg h37]

theorem queryUnescape_percent (c1 c2 : Nat) (t2 : List Nat) (a b : Nat)
    (h1 : hexDigitVal c1 = some a) (h2 : hexDigitVal c2 = some b) :
    queryUnescape (37 :: c1 :: c2 :: t2) =
      (queryUnescape t2).map (fun l => (16 * a + b) :: l) := by
  rw [queryUnescape.eq_2, if_pos rfl]
  simp only [h1, h2]

theorem unescape_escapeByte (b : Nat) (hb : b < 256) (rest : List Nat) :
    queryUnescape (escapeByte b ++ rest) = (queryUnescape rest).map (fun l => b :: l) := by
  unfold escapeByte
  split_ifs with h32 hunr
  · subst h32
    rw [List.singleton_append, queryUnescape_cons_ne 43 rest (by omega), if_pos rfl]
  · have hne := isUnreserved_avoid b hunr
    rw [List.singleton_append, queryUnescape_cons_ne b rest hne.2.2.2.1,
      if_neg hne.2.2.2.2]
  · have h1 : hexDigitVal (upperHexChar (b / 16)) = some (b / 16) :=
      upperHex_roundtrip _ (by omega)
    have h2 : hexDigitVal (upperHexChar (b % 16)) = some (b % 16) :=
      upperHex_roundtrip _ (by omega)
    have hb16 : 16 * (b / 16) + b % 16 = b := by omega
    rw [List.cons_append, List.cons_append, List.singleton_append,
      queryUnescape_percent _ _ _ _ _ h1 h2]
    simp only [hb16]

theorem queryUnescape_queryEscape (P : List Nat) (h : ∀ b ∈ P, b < 256) :
    queryUnescape (queryEscape P) = .ok P := by
  induction P with
  | nil => rfl
  | cons b t ih =>
    rw [queryEscape_cons, unescape_escapeByte b (h b (by simp)) (queryEscape t),
      ih (fun x hx => h x (by simp [hx]))]
    rfl

theorem splitOnAmp_no_amp (l : List Nat) (h : ∀ c ∈ l, c ≠ 38) : splitOnAmp l = [l] := by
  induction l with
  | nil => rfl
  | cons c t ih =>
    rw [splitOnAmp, ih (fun x hx => h x (by simp [hx])), if_neg (h c (by simp))]

theorem extractStep_form (body sig ek rid : List Nat) :
    extractStep ⟨formContentType, some body, sig, ek, rid⟩ =
      (match parseQuery body with
        | (_, some e) => .error e
        | (form, none) => .ok (body, valuesGet form payloadFormParam)) := rfl

theorem extractStep_json (body sig ek rid : List Nat) :
    extractStep ⟨jsonContentType, some body, sig, ek, rid⟩ = .ok (body, body) := rfl

/-! ### The claims about payload extraction -/

/-- Claim C5: extraction is a left inverse of form-encoding. For every byte
sequence `P`, the form body `payload=<QueryEscape P>` under the
form-url-encoded content type extracts (raw body kept for the signature,
decoded field value as the payload) to exactly `P` — decoded, not
re-encoded. -/
theorem extract_form_roundtrip (P sig ek rid : List Nat) (h : ∀ b ∈ P, b < 256) :
    extractStep ⟨formContentType, some (bytes "payload=" ++ queryEscape P), sig, ek, rid⟩ =
      .ok (bytes "payload=" ++ queryEscape P, P) := by
  have hesc : ∀ c ∈ queryEscape P, c ≠ 38 ∧ c ≠ 59 ∧ c ≠ 61 := by
    intro c hc
    obtain ⟨b, _, hcb⟩ := queryEscape_mem P c hc
    exact escapeByte_avoid b c hcb
  have hpfx : ∀ c ∈ bytes "payload=", c ≠ 38 ∧ c ≠ 59 := by decide
  have hno38 : ∀ c ∈ bytes "payload=" ++ queryEscape P, c ≠ 38 := by
    intro c hc
    rcases List.mem_append.mp hc with hc | hc
    · exact (hpfx c hc).1
    · exact (hesc c hc).1
  have hno59 : ∀ c ∈ bytes "payload=" ++ queryEscape P, c ≠ 59 := by
    intro c hc
    rcases List.mem_append.mp hc with hc | hc
    · exact (hpfx c hc).2
    · exact (hesc c hc).2.1
  have hchunks : splitOnAmp (bytes "payload=" ++ queryEscape P) =
      [bytes "payload=" ++ queryEscape P] := splitOnAmp_no_amp _ hno38
  have hcontains : (bytes "payload=" ++ queryEscape P).contains 59 = false := by
    rw [← Bool.not_eq_true]
    intro hcon
    exact absurd rfl (hno59 59 (List.elem_iff.mp hcon))
  have hbodyeq : bytes "payload=" ++ queryEscape P =
      bytes "payload" ++ 61 :: queryEscape P := by
    have : bytes "payload=" = bytes "payload" ++ [61] := by decide
    rw [this, List.append_assoc, List.singleton_append]
  have hcut : cutEq (bytes "payload=" ++ queryEscape P) =
      some (bytes "payload", queryEscape P) := by
    rw [hbodyeq]
    exact cutEq_append _ _ (by decide)
  have hkey : queryUnescape (bytes "payload") = .ok (bytes "payload") := by decide
  have hval := queryUnescape_queryEscape P h
  have hne : bytes "payload=" ++ queryEscape P ≠ [] :=
    List.append_ne_nil_of_left_ne_nil (by decide) _
  rw [extractStep_form]
  unfold parseQuery
  rw [hchunks, List.foldl_cons, List.foldl_nil]
  unfold parseQueryStep
  rw [if_neg (by rw [hcontains]; exact Bool.false_ne_true), if_neg hne]
  unfold cutEqTotal
  rw [hcut]
  simp only [hkey, hval, List.nil_append]
  unfold valuesGet payloadFormParam
  rw [List.find?_cons_of_pos _ (by simp)]

/-- Concrete instance for C5 (the spec's scenario 3): the body
`payload=%7B%22a%22%3A1%7D` extracts to the JSON text with braces and
quotes restored. -/
theorem extract_form_roundtrip_witness :
    (∀ b ∈ bytes "\x7b\x22a\x22:1\x7d", b < 256)
    ∧ extractStep ⟨formContentType,
        some (bytes "payload=" ++ queryEscape (bytes "\x7b\x22a\x22:1\x7d")), [], [], []⟩ =
      .ok (bytes "payload=" ++ queryEscape (bytes "\x7b\x22a\x22:1\x7d"),
        bytes "\x7b\x22a\x22:1\x7d") :=
  ⟨by decide, extract_form_roundtrip (bytes "\x7b\x22a\x22:1\x7d") [] [] [] (by decide)⟩

/-- Claim C8: under the form content type, a body whose parsed query string
has no `payload` field extracts to an empty payload with no error. -/
theorem extract_form_missing_payload (body sig ek rid : List Nat)
    (vals : List (List Nat × List Nat)) (hq : parseQuery body = (vals, none))
    (habs : ∀ kv ∈ vals, kv.1 ≠ payloadFormParam) :
    extractStep ⟨formContentType, some body, sig, ek, rid⟩ = .ok (body, []) := by
  rw [extractStep_form]
  have hget : valuesGet vals payloadFormParam = [] := by
    unfold valuesGet
    have hnone : vals.find? (fun p => p.1 == payloadFormParam) = none :=
      List.find?_eq_none.mpr (fun kv hkv => by simp [habs kv hkv])
    rw [hnone]
  simp only [hq, hget]

/-- Concrete instance for C8: the body `a=b` parses, has no `payload`
field, and extracts to the empty payload with no error. -/
theorem extract_form_missing_payload_witness :
    parseQuery (bytes "a=b") = ([(bytes "a", bytes "b")], none)
    ∧ extractStep ⟨formContentType, some (bytes "a=b"), [], [], []⟩ =
      .ok (bytes "a=b", []) :=
  ⟨by decide,
    extract_form_missing_payload (bytes "a=b") [] [] [] [(bytes "a", bytes "b")]
      (by decide) (by decide)⟩

/-! ### The claim about the event registry -/

/-- The tag a shape's decode produces (the Go type the switch allocates). -/
def shapeTag : EventShape → Nat
  | .push => 0
  | .repositoryModified => 1
  | .repositoryForked => 2
  | .pullRequestOpened => 3
  | .pullRequestReviewersUpdated => 4
  | .pullRequestModified => 5
  | .pullRequestBranchUpdated => 6
  | .pullRequestApproved => 7
  | .pullRequestUnapproved => 8
  | .pullRequestNeedsWork => 9
  | .pullRequestMerged => 10
  | .pullRequestDeclined => 11
  | .pullRequestDeleted => 12

theorem map_ok_inv {α β ε : Type} (f : α → β) (x : Except ε α) (b : β)
    (h : x.map f = .ok b) : ∃ a, x = .ok a ∧ b = f a := by
  cases x with
  | error e => simp [Except.map] at h
  | ok a =>
    simp only [Except.map, Except.ok.injEq] at h
    exact ⟨a, rfl, h.symm⟩

theorem decodeEventShape_tag (s : EventShape) (j : Json) (e : Event)
    (h : decodeEventShape s j = .ok e) : eventTag e = shapeTag s := by
  cases s <;>
    (simp only [decodeEventShape] at h;
     obtain ⟨r, _, rfl⟩ := map_ok_inv _ _ _ h;
     rfl)

theorem shapeFor_none_iff (k : List Nat) :
    shapeFor k = none ↔ k ∉ eventShapeTable.map Prod.fst := by
  unfold shapeFor
  simp only [Option.map_eq_none', List.find?_eq_none, beq_iff_eq]
  constructor
  · intro hall hk
    obtain ⟨x, hx, hxk⟩ := List.mem_map.mp hk
    exact hall x hx hxk
  · intro hnk x hx hxk
    exact hnk (List.mem_map.mpr ⟨x, hx, hxk⟩)

/-- Claim C3: `ParseWebHook` is total over the closed set of thirteen event
keys. Whenever it succeeds, the event's dynamic type is the one the table
assigns to the key; the thirteen assigned types are pairwise distinct; every
one of the thirteen keys decodes a structurally valid payload (here the
empty JSON object) into its shape; and every other key string fails with
the unknown-event-key error naming that key, for every payload, without the
payload ever being parsed or decoded. -/
theorem parseWebHook_closed_set :
    (∀ k p e, ParseWebHook k p = .ok e → (shapeFor k).map shapeTag = some (eventTag e))
    ∧ (eventShapeTable.map (fun kv => shapeTag kv.2)).Nodup
    ∧ (∀ k, k ∈ eventShapeTable.map Prod.fst →
        ∃ e, ParseWebHook k (bytes "\x7b\x7d") = .ok e)
    ∧ (∀ k, k ∉ eventShapeTable.map Prod.fst →
        ∀ p, ParseWebHook k p = .error (.errUnknownEventKey k)) := by
  refine ⟨?_, by decide, ?_, ?_⟩
  · intro k p e h
    unfold ParseWebHook at h
    rcases hs : shapeFor k with _ | s <;> rw [hs] at h
    · exact absurd h (by simp)
    · rcases hj : jsonParse p with _ | j <;> rw [hj] at h
      · exact absurd h (by simp)
      · have hds : decodeEventShape s j = .ok e := h
        rw [decodeEventShape_tag s j e hds]
        rfl
  · intro k hk
    simp only [eventShapeTable, List.map_cons, List.map_nil, List.mem_cons,
      List.not_mem_nil, or_false] at hk
    rcases hk with rfl | rfl | rfl | rfl | rfl | rfl | rfl | rfl | rfl | rfl | rfl | rfl | rfl <;>
      exact ⟨_, rfl⟩
  · intro k hk p
    unfold ParseWebHook
    rw [(shapeFor_none_iff k).mpr hk]

/-- Concrete instances for C3: the push key decodes the empty object to the
push shape; the key dispatch for it is the push tag; and the unrecognized
key `pr:bogus` is rejected for an arbitrary payload, naming the key. -/
theorem parseWebHook_closed_set_witness :
    (∃ e, ParseWebHook eventKeyRepositoryPush (bytes "\x7b\x7d") = .ok e)
    ∧ (shapeFor eventKeyRepositoryPush).map shapeTag = some 0
    ∧ ParseWebHook (bytes "pr:bogus") (bytes "not json") =
        .error (.errUnknownEventKey (bytes "pr:bogus")) :=
  ⟨parseWebHook_closed_set.2.2.1 eventKeyRepositoryPush (by decide),
    by decide,
    parseWebHook_closed_set.2.2.2 (bytes "pr:bogus") (by decide) (bytes "not json")⟩

end GoBitbucket
